import Mathlib

/-!
Verification of the fontbakery check bodies (Lib/fontbakery/checks/metrics.py,
outline.py, opentype/cff.py, googlefonts/family.py) against the systems
specification of the check execution engine.

Each Python check body is a generator yielding (severity, message) pairs; we
embed a body as a Lean function from its resolved inputs to the ordered list
of emitted outcomes.  A body that can raise an uncaught Python exception is
embedded as a function returning a `CheckRun`: the outcomes emitted before the
exception together with an optional error marker.  External collaborators
(fontTools table accessors, the beziers outline geometry) are modelled as
typed data carried by the input structures, exactly as the spec prescribes
(section 6: the core only consumes typed accessors over decoded tables).
-/

set_option linter.unusedVariables false

/-- The severities a check can emit (fontbakery.status). -/
inductive Severity where
  | DEBUG
  | INFO
  | PASS
  | SKIP
  | WARN
  | FAIL
  | ERROR
  deriving DecidableEq, Repr, Inhabited

open Severity

/-- A message: machine-readable code (absent when the Python body yields a bare
string) plus human-readable text. -/
structure Message where
  code : Option String
  text : String
  deriving DecidableEq, Repr, Inhabited

/-- `Message(code, text)` in the Python sources. -/
def msg (c t : String) : Message := { code := some c, text := t }

/-- A bare string yielded by a Python body, e.g. `yield PASS, "OK"`. -/
def rawMsg (t : String) : Message := { code := none, text := t }

/-- One emission of a check body. -/
abbrev Outcome := Severity × Message

/-- Result of running a check body: the outcomes emitted, and an error marker
when the body raised an uncaught Python exception after those emissions. -/
structure CheckRun where
  outcomes : List Outcome
  err : Option String
  deriving DecidableEq, Repr, Inhabited

/-- The run configuration passed to some bodies; its contents are irrelevant
to every claim (it only affects list formatting), so it is a marker type. -/
structure Config where
  deriving DecidableEq, Repr, Inhabited

/-- Modelled from the spec: `fontbakery.utils.bullet_list` lives outside the
given source files; it renders a list of items as bulleted lines of text. -/
def bullet_list (config : Config) (items : List String) (bullet : String) : String :=
  String.intercalate "\n" (items.map (fun it => bullet ++ " " ++ it))

/-! ## The decoded-font data model

Typed accessor surface over a decoded font (spec section 6): the engine and
the check bodies only consume these accessors; decoding is external. -/

/-- The OS/2 table fields read by the embedded checks. -/
structure OS2Table where
  usWinAscent : Int
  usWinDescent : Int
  sTypoAscender : Int
  sTypoDescender : Int
  sTypoLineGap : Int
  version : Int
  sxHeight : Int
  sCapHeight : Int
  deriving DecidableEq, Repr, Inhabited

/-- The hhea table fields read by the embedded checks. -/
structure HheaTable where
  ascent : Int
  descent : Int
  lineGap : Int
  deriving DecidableEq, Repr, Inhabited

/-- The head table fields read by the embedded checks. -/
structure HeadTable where
  unitsPerEm : Int
  deriving DecidableEq, Repr, Inhabited

/-- A glyph as seen through `ttFont.getGlyphSet()`: its name, its advance
width, and the bounding box a fontTools `BoundsPen` reports after drawing it
(`(xMin, yMin, xMax, yMax)`); the box is `none` exactly when the glyph has no
contours, in which case `pen.bounds` is Python `None`. -/
structure SimpleGlyph where
  name : String
  width : Int
  bounds : Option (Int × Int × Int × Int)
  deriving DecidableEq, Repr, Inhabited

/-- A decoded font: the typed accessor surface consumed by the check bodies.
Tables that a font file may lack are `Option`; `bbYMin`/`bbYMax` are the
font bounding box reported by `fontbakery.utils.get_bounding_box`;
`cmapCodepoints` is `getBestCmap().keys()`; `fileName` is
`ttFont.reader.file.name`; `fullName` is `name.getBestFullName()`. -/
structure TTFont where
  fileName : String
  fullName : String
  os2 : Option OS2Table
  hhea : Option HheaTable
  head : Option HeadTable
  glyphSet : List SimpleGlyph
  bbYMin : Int
  bbYMax : Int
  cmapCodepoints : List Nat
  deriving DecidableEq, Repr, Inhabited

/-- `glyphname in glyphSet.keys()`. -/
def hasGlyph (gs : List SimpleGlyph) (n : String) : Bool :=
  gs.any (fun g => g.name == n)

/-- `glyphSet[name]` lookup. -/
def glyphLookup (gs : List SimpleGlyph) (n : String) : Option SimpleGlyph :=
  gs.find? (fun g => g.name == n)

/-- Modelled from the spec: `os.path.basename` as used on font file paths. -/
def basename (p : String) : String := (p.splitOn "/").getLastD p

/-! ## metrics.py -/

/-- The dict returned by the `vmetrics` condition. -/
structure VMetricsDict where
  ymin : Int
  ymax : Int
  deriving DecidableEq, Repr, Inhabited

/-- Modelled from the spec: `fontbakery.utils.get_bounding_box` (outside the
given source files) returns the decoded font bounding box (yMin, yMax). -/
def get_bounding_box (f : TTFont) : Int × Int := (f.bbYMin, f.bbYMax)

/-- `vmetrics` condition (metrics.py lines 7-16): folds every font of the
collection into a dict starting from `ymin = 0, ymax = 0`. -/
def vmetrics (collection : List TTFont) : VMetricsDict :=
  collection.foldl
    (fun v_metrics ttFont =>
      let fb := get_bounding_box ttFont
      { ymin := min fb.1 v_metrics.ymin, ymax := max fb.2 v_metrics.ymax })
    { ymin := 0, ymax := 0 }

/-- `check_family_win_ascent_and_descent` (metrics.py lines 41-103).
The four failure emissions are collected in source order; the Python flag
`failed` is true exactly when that list is nonempty. -/
def check_family_win_ascent_and_descent (ttFont : TTFont) (vm : VMetricsDict) :
    List Outcome :=
  match ttFont.os2 with
  | none => [(FAIL, msg "lacks-OS/2" "Font file lacks OS/2 table")]
  | some os2_table =>
    let win_ascent := os2_table.usWinAscent
    let win_descent := os2_table.usWinDescent
    let y_max := vm.ymax
    let y_min := vm.ymin
    let e1 := if win_ascent < y_max then
        [(FAIL, msg "ascent"
          ("OS/2.usWinAscent value should be equal or greater than " ++ toString y_max ++
           ", but got " ++ toString win_ascent ++ " instead"))] else []
    let e2 := if win_ascent > y_max * 2 then
        [(FAIL, msg "ascent"
          ("OS/2.usWinAscent value " ++ toString win_ascent ++ " is too large." ++
           " It should be less than double the yMax. Current yMax value is " ++
           toString y_max))] else []
    let e3 := if win_descent < |y_min| then
        [(FAIL, msg "descent"
          ("OS/2.usWinDescent value should be equal or greater than " ++ toString |y_min| ++
           ", but got " ++ toString win_descent ++ " instead"))] else []
    let e4 := if win_descent > |y_min| * 2 then
        [(FAIL, msg "descent"
          ("OS/2.usWinDescent value " ++ toString win_descent ++ " is too large." ++
           " It should be less than double the yMin. Current absolute yMin value is " ++
           toString |y_min|))] else []
    let failures := e1 ++ e2 ++ e3 ++ e4
    if failures = [] then
      [(PASS, rawMsg "OS/2 usWinAscent & usWinDescent values look good!")]
    else failures

/-- `check_os2_metrics_match_hhea` (metrics.py lines 122-159): the loop over
`required = ["OS/2", "hhea"]` emits one FAIL per missing table (OS/2 first)
and returns; otherwise a single outcome from the if/elif chain. -/
def check_os2_metrics_match_hhea (ttFont : TTFont) : List Outcome :=
  let filename := basename ttFont.fileName
  match ttFont.os2, ttFont.hhea with
  | none, none =>
    [(FAIL, msg "lacks-OS/2" (filename ++ " lacks a OS/2 table.")),
     (FAIL, msg "lacks-hhea" (filename ++ " lacks a hhea table."))]
  | none, some _ => [(FAIL, msg "lacks-OS/2" (filename ++ " lacks a OS/2 table."))]
  | some _, none => [(FAIL, msg "lacks-hhea" (filename ++ " lacks a hhea table."))]
  | some os2_table, some hhea_table =>
    if os2_table.sTypoAscender ≠ hhea_table.ascent then
      [(FAIL, msg "ascender"
        ("OS/2 sTypoAscender (" ++ toString os2_table.sTypoAscender ++
         ") and hhea ascent (" ++ toString hhea_table.ascent ++ ") must be equal."))]
    else if os2_table.sTypoDescender ≠ hhea_table.descent then
      [(FAIL, msg "descender"
        ("OS/2 sTypoDescender (" ++ toString os2_table.sTypoDescender ++
         ") and hhea descent (" ++ toString hhea_table.descent ++ ") must be equal."))]
    else if os2_table.sTypoLineGap ≠ hhea_table.lineGap then
      [(FAIL, msg "lineGap"
        ("OS/2 sTypoLineGap (" ++ toString os2_table.sTypoLineGap ++
         ") and hhea lineGap (" ++ toString hhea_table.lineGap ++ ") must be equal."))]
    else [(PASS, rawMsg "OS/2.sTypoAscender/Descender values match hhea.ascent/descent.")]

/-- The eight per-metric dicts built by `check_family_vertical_metrics`,
each keyed by the full font name. -/
structure VMDicts where
  sTypoAscender : List (String × Int)
  sTypoDescender : List (String × Int)
  sTypoLineGap : List (String × Int)
  usWinAscent : List (String × Int)
  usWinDescent : List (String × Int)
  ascent : List (String × Int)
  descent : List (String × Int)
  lineGap : List (String × Int)
  deriving DecidableEq, Repr, Inhabited

def emptyVMDicts : VMDicts := ⟨[], [], [], [], [], [], [], []⟩

/-- Python dict assignment `d[k] = v`: overwrite an existing key in place, or
append a new key in insertion order. -/
def assocSet (m : List (String × Int)) (k : String) (v : Int) : List (String × Int) :=
  match m with
  | [] => [(k, v)]
  | (k', v') :: rest =>
    if k' = k then (k', v) :: rest else (k', v') :: assocSet rest k v

/-- Record the metrics of one font (with both tables present) into the dicts,
keyed by the full font name (metrics.py lines 197-205). -/
def vmRecord (d : VMDicts) (ttFont : TTFont) (o : OS2Table) (h : HheaTable) : VMDicts :=
  let n := ttFont.fullName
  { sTypoAscender := assocSet d.sTypoAscender n o.sTypoAscender
    sTypoDescender := assocSet d.sTypoDescender n o.sTypoDescender
    sTypoLineGap := assocSet d.sTypoLineGap n o.sTypoLineGap
    usWinAscent := assocSet d.usWinAscent n o.usWinAscent
    usWinDescent := assocSet d.usWinDescent n o.usWinDescent
    ascent := assocSet d.ascent n h.ascent
    descent := assocSet d.descent n h.descent
    lineGap := assocSet d.lineGap n h.lineGap }

/-- The FAIL emitted for a font missing a required table in the main loop of
`check_family_vertical_metrics` (OS/2 checked before hhea), or `none` when
the font has both tables. -/
def vmMissingFail (ttFont : TTFont) : Option Outcome :=
  let filename := basename ttFont.fileName
  if ttFont.os2 = none then
    some (FAIL, msg "lacks-OS/2" (filename ++ " lacks an OS/2 table."))
  else if ttFont.hhea = none then
    some (FAIL, msg "lacks-hhea" (filename ++ " lacks a hhea table."))
  else none

/-- One step of the font loop of `check_family_vertical_metrics`
(metrics.py lines 185-205): state is (emitted outcomes, missing_tables flag,
metric dicts). -/
def vmStep (acc : List Outcome × Bool × VMDicts) (ttFont : TTFont) :
    List Outcome × Bool × VMDicts :=
  match acc with
  | (outs, missing_tables, dicts) =>
    match vmMissingFail ttFont with
    | some out => (outs ++ [out], true, dicts)
    | none =>
      match ttFont.os2, ttFont.hhea with
      | some o, some h => (outs, missing_tables, vmRecord dicts ttFont o h)
      | _, _ => (outs, missing_tables, dicts)

def METRIC_KEYS : List String :=
  ["sTypoAscender", "sTypoDescender", "sTypoLineGap", "usWinAscent",
   "usWinDescent", "ascent", "descent", "lineGap"]

def vmValues (d : VMDicts) (k : String) : List (String × Int) :=
  if k = "sTypoAscender" then d.sTypoAscender
  else if k = "sTypoDescender" then d.sTypoDescender
  else if k = "sTypoLineGap" then d.sTypoLineGap
  else if k = "usWinAscent" then d.usWinAscent
  else if k = "usWinDescent" then d.usWinDescent
  else if k = "ascent" then d.ascent
  else if k = "descent" then d.descent
  else d.lineGap

/-- The text block listing per-font values of one mismatching metric. -/
def vmMismatchText (k : String) (vals : List (String × Int)) : String :=
  k ++ " is not the same across the family:\n" ++
  String.intercalate "\n" (vals.map (fun p => p.1 ++ ": " ++ toString p.2))

/-- `check_family_vertical_metrics` (metrics.py lines 170-224). -/
def check_family_vertical_metrics (ttFonts : List TTFont) : List Outcome :=
  let st := ttFonts.foldl vmStep ([], false, emptyVMDicts)
  match st with
  | (outs, missing_tables, dicts) =>
    if missing_tables then outs
    else
      let failed := METRIC_KEYS.filter
        (fun k => (((vmValues dicts k).map Prod.snd).dedup).length ≠ 1)
      if failed = [] then
        outs ++ [(PASS, rawMsg "Vertical metrics are the same across the family.")]
      else
        outs ++ failed.map (fun k =>
          (FAIL, msg (k ++ "-mismatch") (vmMismatchText k (vmValues dicts k))))

/-- `check_linegaps` (metrics.py lines 246-261); the sorted set difference
`sorted({"hhea", "OS/2"} - present)` lists OS/2 before hhea. -/
def check_linegaps (ttFont : TTFont) : List Outcome :=
  match ttFont.os2, ttFont.hhea with
  | none, none =>
    [(FAIL, msg "lacks-table" "Font lacks OS/2 table."),
     (FAIL, msg "lacks-table" "Font lacks hhea table.")]
  | none, some _ => [(FAIL, msg "lacks-table" "Font lacks OS/2 table.")]
  | some _, none => [(FAIL, msg "lacks-table" "Font lacks hhea table.")]
  | some os2_table, some hhea_table =>
    if hhea_table.lineGap ≠ 0 then
      [(WARN, msg "hhea" "hhea lineGap is not equal to 0.")]
    else if os2_table.sTypoLineGap ≠ 0 then
      [(WARN, msg "OS/2" "OS/2 sTypoLineGap is not equal to 0.")]
    else [(PASS, rawMsg "OS/2 sTypoLineGap and hhea lineGap are both 0.")]

/-! ## Mutation model: checks and conditions must not touch the shared entity

The spec (sections 3 and 5) requires testable entities to be shared-immutable:
drawing outlines mutates a fontTools object in place, so any body needing it
must first deep-copy.  We model an in-place-mutable decoded font as a value
paired with a mutation counter, and a body that may mutate as a state
function returning the entity it leaves in the shared cache. -/

/-- A decoded fontTools object as held by the shared cache: the typed data
plus a counter of the in-place mutations performed on this very object. -/
structure MutTTFont where
  font : TTFont
  timesMutated : Nat
  deriving DecidableEq, Repr, Inhabited

/-- `copy.deepcopy(ttFont)`: an owned value copy of the object. -/
def deepcopy (f : MutTTFont) : MutTTFont := f

/-- Drawing a glyph with a `BoundsPen` (`glyphset[name].draw(pen)`); the
source comments note this modifies the font object in place, so the result
font records one more mutation.  Returns `pen.bounds`. -/
def drawGlyphBounds (f : MutTTFont) (n : String) :
    Option (Int × Int × Int × Int) × MutTTFont :=
  ((glyphLookup f.font.glyphSet n).bind (fun g => g.bounds),
   { f with timesMutated := f.timesMutated + 1 })

/-- `check_typoascender_exceeds_Agrave` (metrics.py lines 281-322): works on a
deep copy of `ttFont` so that drawing never touches the shared entity; the
second component is the object left in the shared cache after the run. -/
def check_typoascender_exceeds_Agrave (ttFont : MutTTFont) : CheckRun × MutTTFont :=
  let ttFont_copy := deepcopy ttFont
  match ttFont_copy.font.os2 with
  | none => (⟨[(FAIL, msg "lacks-OS/2" "Font file lacks OS/2 table")], none⟩, ttFont)
  | some os2_table =>
    let glyphset := ttFont_copy.font.glyphSet
    if ¬ (hasGlyph glyphset "Agrave" ∨ hasGlyph glyphset "uni00C0") then
      (⟨[(SKIP, msg "lacks-Agrave"
          "Font file lacks the /Agrave, so it cant be compared with typoAscender")],
        none⟩, ttFont)
    else
      -- try Agrave, fall back to uni00C0 on KeyError
      let drawn :=
        if hasGlyph glyphset "Agrave" then drawGlyphBounds ttFont_copy "Agrave"
        else drawGlyphBounds ttFont_copy "uni00C0"
      match drawn.1 with
      | none =>
        -- pen.bounds is None: `pen.bounds[-1]` raises TypeError
        (⟨[], some "TypeError: NoneType object is not subscriptable"⟩, ttFont)
      | some (_, _, _, yMax) =>
        let typoAscender := os2_table.sTypoAscender
        if typoAscender < yMax then
          (⟨[(WARN, msg "typoAscender"
              ("OS/2.sTypoAscender value should be greater than " ++ toString yMax ++
               ", but got " ++ toString typoAscender ++ " instead"))], none⟩, ttFont)
        else
          (⟨[(PASS, rawMsg
              "OS/2.sTypoAscender value is greater than the yMax of /Agrave.")], none⟩,
           ttFont)

def SOME_UPPERCASE_GLYPHS : List String :=
  ["A", "B", "C", "D", "E", "H", "I", "M", "O", "S", "T", "X"]

/-- `check_caps_vertically_centered` (metrics.py lines 340-385).  The body
deep-copies the font, SKIPs when any of the twelve sample glyphs is missing,
draws each sample glyph with its own `BoundsPen` (an empty glyph leaves
`pen.bounds = None`, so unpacking raises TypeError), then averages the twelve
high and low points and compares margins. -/
def check_caps_vertically_centered (ttFont : MutTTFont) : CheckRun :=
  let ttFont_copy := deepcopy ttFont
  let glyphSet := ttFont_copy.font.glyphSet
  if SOME_UPPERCASE_GLYPHS.any (fun g => ¬ hasGlyph glyphSet g) then
    [(SKIP, msg "lacks-ascii"
      ("The implementation of this check relies on a few samples of uppercase" ++
       " latin characters that are not available in this font."))] |>
    (fun outs => ⟨outs, none⟩)
  else
    let boundsList := SOME_UPPERCASE_GLYPHS.map
      (fun g => (glyphLookup glyphSet g).bind (fun gl => gl.bounds))
    if boundsList.any (fun b => b = none) then
      ⟨[], some "TypeError: cannot unpack non-iterable NoneType object"⟩
    else
      let highest_point_list := boundsList.filterMap (fun b => b.map (fun q => q.2.2.2))
      let lowest_point_list := boundsList.filterMap (fun b => b.map (fun q => q.2.1))
      match ttFont_copy.font.head, ttFont.font.hhea with
      | none, _ => ⟨[], some "KeyError: head"⟩
      | some _, none => ⟨[], some "KeyError: hhea"⟩
      | some head_table, some hhea_table =>
        let upm : ℚ := (head_table.unitsPerEm : ℚ)
        let line_spacing_factor : ℚ := 12 / 10
        let error_margin : ℚ := (line_spacing_factor * upm) * (18 / 100)
        let average_cap_height : ℚ :=
          ((highest_point_list.map (fun z => (z : ℚ))).sum) / (highest_point_list.length : ℚ)
        let average_descender : ℚ :=
          ((lowest_point_list.map (fun z => (z : ℚ))).sum) / (lowest_point_list.length : ℚ)
        let top_margin : ℚ := (hhea_table.ascent : ℚ) - average_cap_height
        let bottom_margin : ℚ := |(hhea_table.descent : ℚ)| + average_descender
        let difference := |top_margin - bottom_margin|
        if difference > error_margin then
          ⟨[(WARN, msg "vertical-metrics-not-centered"
              "Uppercase glyphs are not vertically centered in the em box.")], none⟩
        else
          ⟨[(PASS, rawMsg "Uppercase glyphs are vertically centered in the em box.")], none⟩

/-! ## outline.py

The outline geometry (beziers library) is an external collaborator: a node, a
segment and a path are carried as the typed values the check bodies read off
them.  Coordinates, lengths and angles are rationals (the bodies only compare
them against rational thresholds). -/

/-- A node of `path.asNodelist()`: coordinates and the node type string
(one of "offcurve", "curve", "line", "qcurve"). -/
structure ONode where
  x : ℚ
  y : ℚ
  type : String
  deriving DecidableEq, Repr, Inhabited

/-- A segment of `path.asSegments()` as the bodies read it: the number of
points (`len(seg)`: 2 for a line), its length, its endpoints, the angle of
its tangent at time 0, the angle in degrees of `end - start` (for lines),
and its display text `str(seg)`. -/
structure Segment where
  npoints : Nat
  length : ℚ
  start : ℚ × ℚ
  stop : ℚ × ℚ
  tangent0angle : ℚ
  angleDeg : ℚ
  text : String
  deriving DecidableEq, Repr, Inhabited

/-- `path.bounds()` with all four sides present (`bounds.bl` not None). -/
structure BBox where
  left : ℚ
  right : ℚ
  top : ℚ
  bottom : ℚ
  deriving DecidableEq, Repr, Inhabited

/-- One Bezier path of a glyph. -/
structure OPath where
  nodes : List ONode
  segments : List Segment
  length : ℚ
  bounds : Option BBox
  direction : Int
  deriving DecidableEq, Repr, Inhabited

/-- `outlines_dict` condition value: keys are (glyphname, display_name). -/
abbrev OutlinesDict := List ((String × String) × List OPath)

def ALIGNMENT_MISS_EPSILON : ℚ := 2
def SHORT_PATH_EPSILON : ℚ := 6 / 1000
def SHORT_PATH_ABSOLUTE_EPSILON : ℚ := 3
def COLINEAR_EPSILON : ℚ := 1 / 10
def FALSE_POSITIVE_CUTOFF : Nat := 100

/-- `close_but_not_on` (outline.py lines 39-44). -/
def close_but_not_on (yExpected yTrue tolerance : ℚ) : Bool :=
  if yExpected = yTrue then false
  else if |yExpected - yTrue| ≤ tolerance then true
  else false

/-- The alignments dict of `check_outline_alignment_miss` in insertion order;
x-height and cap-height are only present for OS/2 version >= 2. -/
def amAlignments (os2_table : OS2Table) : List (String × ℚ) :=
  [("baseline", 0),
   ("ascender", (os2_table.sTypoAscender : ℚ)),
   ("descender", (os2_table.sTypoDescender : ℚ))] ++
  (if os2_table.version ≥ 2 then
    [("x-height", (os2_table.sxHeight : ℚ)), ("cap-height", (os2_table.sCapHeight : ℚ))]
  else [])

/-- Python `str.isupper()` on the first character of a glyph name (glyph
names are ASCII identifiers). -/
def headIsUpper (s : String) : Bool := (s.toList.headD 'A').isUpper

/-- The misalignment warnings one glyph contributes
(outline.py lines 93-109). -/
def amWarnings (alignments : List (String × ℚ)) (glyph : (String × String) × List OPath) :
    List String :=
  let glyphname := glyph.1.1
  let display_name := glyph.1.2
  glyph.2.flatMap (fun p =>
    p.nodes.flatMap (fun node =>
      if node.type == "offcurve" then []
      else
        alignments.filterMap (fun lv =>
          -- skip x-height check for caps
          if lv.1 = "x-height" ∧ (glyphname.length > 1 ∨ headIsUpper glyphname) then
            none
          else if close_but_not_on lv.2 node.y ALIGNMENT_MISS_EPSILON then
            some (display_name ++ ": X=" ++ toString node.x ++ ",Y=" ++ toString node.y ++
                  " (should be at " ++ lv.1 ++ " " ++ toString lv.2 ++ "?)")
          else none)))

def amCutoffText : String :=
  "So many Y-coordinates of points were close to boundaries that this was probably by design."

def amFoundText (config : Config) (warnings : List String) : String :=
  "The following glyphs have on-curve points which have potentially incorrect" ++
  " y coordinates:\n\n" ++ bullet_list config warnings "*"

def amPassText : String := "Y-coordinates of points fell on appropriate boundaries."

/-- The glyph loop of `check_outline_alignment_miss` (outline.py lines
93-127): accumulates warnings glyph by glyph, returning one summary PASS as
soon as the accumulated count exceeds the cutoff after some glyph. -/
def amGo (config : Config) (alignments : List (String × ℚ)) (acc : List String) :
    OutlinesDict → List Outcome
  | [] =>
    if acc ≠ [] then [(WARN, msg "found-misalignments" (amFoundText config acc))]
    else [(PASS, rawMsg amPassText)]
  | g :: rest =>
    let acc2 := acc ++ amWarnings alignments g
    if acc2.length > FALSE_POSITIVE_CUTOFF then [(PASS, rawMsg amCutoffText)]
    else amGo config alignments acc2 rest

/-- Whether the loop of `check_outline_alignment_miss` reaches the cutoff
early return. -/
def amHits (alignments : List (String × ℚ)) (acc : List String) :
    OutlinesDict → Bool
  | [] => false
  | g :: rest =>
    let acc2 := acc ++ amWarnings alignments g
    if acc2.length > FALSE_POSITIVE_CUTOFF then true
    else amHits alignments acc2 rest

/-- The WARN emitted before the glyph loop when the OS/2 table is older than
version 2 (outline.py lines 81-91). -/
def amPre (os2_table : OS2Table) : List Outcome :=
  if os2_table.version ≥ 2 then []
  else
    [(WARN, msg "skip-cap-x-height-alignment"
        ("x-height and cap-height checks are skipped because OS/2 table version" ++
         " is only " ++ toString os2_table.version ++
         " and version >= 2 is required for those checks."))]

/-- `check_outline_alignment_miss` (outline.py lines 64-127); reading
`ttFont["OS/2"]` raises KeyError when the table is absent. -/
def check_outline_alignment_miss (ttFont : TTFont) (outlines_dict : OutlinesDict)
    (config : Config) : CheckRun :=
  match ttFont.os2 with
  | none => ⟨[], some "KeyError: OS/2"⟩
  | some os2_table =>
    ⟨amPre os2_table ++ amGo config (amAlignments os2_table) [] outlines_dict, none⟩

/-- The short-segment warnings of one path, threading `prev_was_line`
(outline.py lines 150-168). -/
def ssLoop (display_name : String) (outline_length : ℚ) :
    Bool → List Segment → List String
  | _, [] => []
  | prev_was_line, seg :: rest =>
    let here :=
      if seg.length = 0 then
        [display_name ++ " contains a short segment " ++ seg.text]
      else if (seg.length < SHORT_PATH_ABSOLUTE_EPSILON ∨
               seg.length < SHORT_PATH_EPSILON * outline_length) ∧
              (prev_was_line ∨ seg.npoints > 2) then
        [display_name ++ " contains a short segment " ++ seg.text]
      else []
    here ++ ssLoop display_name outline_length (seg.npoints == 2) rest

/-- The short-segment warnings one glyph contributes. -/
def ssWarnings (glyph : (String × String) × List OPath) : List String :=
  let display_name := glyph.1.2
  glyph.2.flatMap (fun p =>
    match p.segments.getLast? with
    | none => []
    | some lastSeg => ssLoop display_name p.length (lastSeg.npoints == 2) p.segments)

def ssCutoffText : String :=
  "So many short segments were found that this was probably by design."

def ssFoundText (config : Config) (warnings : List String) : String :=
  "The following glyphs have segments which seem very short:\n\n" ++
  bullet_list config warnings "*"

/-- The glyph loop of `check_outline_short_segments` with its cutoff
(outline.py lines 148-183). -/
def ssGo (config : Config) (acc : List String) : OutlinesDict → List Outcome
  | [] =>
    if acc ≠ [] then [(WARN, msg "found-short-segments" (ssFoundText config acc))]
    else [(PASS, rawMsg "No short segments were found.")]
  | g :: rest =>
    let acc2 := acc ++ ssWarnings g
    if acc2.length > FALSE_POSITIVE_CUTOFF then [(PASS, rawMsg ssCutoffText)]
    else ssGo config acc2 rest

/-- Whether the loop of `check_outline_short_segments` reaches the cutoff. -/
def ssHits (acc : List String) : OutlinesDict → Bool
  | [] => false
  | g :: rest =>
    let acc2 := acc ++ ssWarnings g
    if acc2.length > FALSE_POSITIVE_CUTOFF then true else ssHits acc2 rest

/-- `check_outline_short_segments` (outline.py lines 144-183). -/
def check_outline_short_segments (ttFont : TTFont) (outlines_dict : OutlinesDict)
    (config : Config) : List Outcome :=
  ssGo config [] outlines_dict

/-- The wrap-around consecutive pairs `(segments[i-1], segments[i])` for
`i in range(len(segments))`; for `i = 0` Python indexes `segments[-1]`. -/
def wrapPairs (segments : List Segment) : List (Segment × Segment) :=
  match segments.getLast? with
  | none => []
  | some lastSeg => (lastSeg :: segments.dropLast).zip segments

/-- The colinear-vector warnings one glyph contributes
(outline.py lines 204-216). -/
def cvWarnings (glyph : (String × String) × List OPath) : List String :=
  let display_name := glyph.1.2
  glyph.2.flatMap (fun p =>
    (wrapPairs p.segments).filterMap (fun pr =>
      if pr.1.npoints = 2 ∧ pr.2.npoints = 2 ∧
         |pr.1.tangent0angle - pr.2.tangent0angle| < COLINEAR_EPSILON then
        some (display_name ++ ": " ++ pr.1.text ++ " -> " ++ pr.2.text)
      else none))

def cvCutoffText : String :=
  "So many colinear vectors were found that this was probably by design."

/-- Python `sorted(set(ws))`: the distinct strings in ascending order. -/
def sortedSet (ws : List String) : List String :=
  ws.dedup.mergeSort (fun a b => a ≤ b)

def cvFoundText (config : Config) (warnings : List String) : String :=
  "The following glyphs have colinear vectors:\n\n" ++
  bullet_list config (sortedSet warnings) "*"

/-- The glyph loop of `check_outline_colinear_vectors` with its cutoff
(outline.py lines 202-231). -/
def cvGo (config : Config) (acc : List String) : OutlinesDict → List Outcome
  | [] =>
    if acc ≠ [] then [(WARN, msg "found-colinear-vectors" (cvFoundText config acc))]
    else [(PASS, rawMsg "No colinear vectors found.")]
  | g :: rest =>
    let acc2 := acc ++ cvWarnings g
    if acc2.length > FALSE_POSITIVE_CUTOFF then [(PASS, rawMsg cvCutoffText)]
    else cvGo config acc2 rest

/-- Whether the loop of `check_outline_colinear_vectors` reaches the cutoff. -/
def cvHits (acc : List String) : OutlinesDict → Bool
  | [] => false
  | g :: rest =>
    let acc2 := acc ++ cvWarnings g
    if acc2.length > FALSE_POSITIVE_CUTOFF then true else cvHits acc2 rest

/-- `check_outline_colinear_vectors` (outline.py lines 198-231). -/
def check_outline_colinear_vectors (ttFont : TTFont) (outlines_dict : OutlinesDict)
    (config : Config) : List Outcome :=
  cvGo config [] outlines_dict

/-- `check_outline_jaggy_segments` (outline.py lines 245-282).  Whether a
wrap-around segment pair forms a jaggy joint is a computation entirely inside
the external beziers types (tangent vectors, magnitudes, arc cosine), so it
is taken as a parameter `jaggyPair`; the body filters pairs with it and
always ends in exactly one WARN or PASS. -/
def check_outline_jaggy_segments (jaggyPair : Segment → Segment → Bool)
    (ttFont : TTFont) (outlines_dict : OutlinesDict) (config : Config) :
    List Outcome :=
  let warnings := outlines_dict.flatMap (fun glyph =>
    let display_name := glyph.1.2
    glyph.2.flatMap (fun p =>
      (wrapPairs p.segments).filterMap (fun pr =>
        if jaggyPair pr.1 pr.2 then
          some (display_name ++ ": " ++ pr.1.text ++ "/" ++ pr.2.text)
        else none)))
  if warnings ≠ [] then
    [(WARN, msg "found-jaggy-segments"
      ("The following glyphs have jaggy segments:\n\n" ++
       bullet_list config (warnings.mergeSort (fun a b => a ≤ b)) "*"))]
  else [(PASS, rawMsg "No jaggy segments found.")]

/-- `check_outline_semi_vertical` (outline.py lines 298-326): for each line
segment, warn when its direction in degrees is close to but not on one of
-180, -90, 0, 90, 180. -/
def check_outline_semi_vertical (ttFont : TTFont) (outlines_dict : OutlinesDict)
    (config : Config) : List Outcome :=
  let warnings := outlines_dict.flatMap (fun glyph =>
    let display_name := glyph.1.2
    glyph.2.flatMap (fun p =>
      p.segments.flatMap (fun s =>
        if s.npoints ≠ 2 then []
        else
          ([-180, -90, 0, 90, 180] : List ℚ).filterMap (fun yExpected =>
            if close_but_not_on s.angleDeg yExpected (1 / 2) then
              some (display_name ++ ": " ++ s.text)
            else none))))
  if warnings ≠ [] then
    [(WARN, msg "found-semi-vertical"
      ("The following glyphs have semi-vertical/semi-horizontal lines:\n\n" ++
       bullet_list config (warnings.mergeSort (fun a b => a ≤ b)) "*"))]
  else [(PASS, rawMsg "No semi-horizontal/semi-vertical lines found.")]

/-- `bounds_contains` of `check_outline_direction` (outline.py lines
344-350). -/
def bounds_contains (bb1 bb2 : BBox) : Bool :=
  bb1.left ≤ bb2.left ∧ bb1.right ≥ bb2.right ∧ bb1.top ≥ bb2.top ∧ bb1.bottom ≤ bb2.bottom

/-- Whether the path at index `j` is inside some other path of the glyph:
`is_within[j]` is nonempty after the double loop of outline.py lines
357-370. -/
def odIsWithin (bs : List (Option BBox)) (j : Nat) : Bool :=
  (List.range bs.length).any (fun i =>
    (i != j) &&
    match bs.get? i, bs.get? j with
    | some (some bi), some (some bj) => bounds_contains bi bj
    | _, _ => false)

/-- The warnings one glyph contributes in `check_outline_direction`: first
the no-bounds warnings (outline.py lines 358-361), then the
counter-clockwise-outer-contour warnings (lines 372-376). -/
def odGlyphWarnings (glyph : (String × String) × List OPath) : List String :=
  let display_name := glyph.1.2
  let outline_bounds := glyph.2.map (fun path => path.bounds)
  let noBounds := outline_bounds.filterMap (fun b =>
    if b = none then
      some (display_name ++ " has a path with no bounds (probably a single point)")
    else none)
  let ccw := (List.range glyph.2.length).filterMap (fun i =>
    if odIsWithin outline_bounds i then none
    else match glyph.2.get? i with
      | some path =>
        if path.direction = 1 then
          some (display_name ++ " has a counter-clockwise outer contour")
        else none
      | none => none)
  noBounds ++ ccw

/-- All warnings accumulated by `check_outline_direction`. -/
def odWarnings (outlines_dict : OutlinesDict) : List String :=
  outlines_dict.flatMap odGlyphWarnings

/-- `check_outline_direction` (outline.py lines 340-384): note the body has
no PASS branch, so it emits nothing when no warning was collected. -/
def check_outline_direction (ttFont : TTFont) (outlines_dict : OutlinesDict)
    (config : Config) : List Outcome :=
  let warnings := odWarnings outlines_dict
  if warnings ≠ [] then
    [(WARN, msg "ccw-outer-contour"
      ("The following glyphs have a counter-clockwise outer contour:\n\n" ++
       bullet_list config (warnings.mergeSort (fun a b => a ≤ b)) "*"))]
  else []

/-- The per-glyph seen-set loop of `check_overlapping_path_segments`
(outline.py lines 403-413): `seen` holds (start, end) coordinate pairs. -/
def opsLoop (displayName : String) (seen : List ((ℚ × ℚ) × (ℚ × ℚ))) :
    List Segment → List String
  | [] => []
  | seg :: rest =>
    let normal := (seg.start, seg.stop)
    let flipped := (seg.stop, seg.start)
    let here :=
      if seen.contains normal ∨ seen.contains flipped then
        [displayName ++ ": " ++ seg.text ++ " has the same coordinates as a previous segment."]
      else []
    here ++ opsLoop displayName (seen ++ [normal]) rest

/-- `check_overlapping_path_segments` (outline.py lines 400-421). -/
def check_overlapping_path_segments (ttFont : TTFont) (outlines_dict : OutlinesDict)
    (config : Config) : List Outcome :=
  let failed := outlines_dict.flatMap (fun glyph =>
    opsLoop glyph.1.2 [] (glyph.2.flatMap (fun p => p.segments)))
  if failed ≠ [] then
    [(WARN, msg "overlapping-path-segments"
      ("The following glyphs have overlapping path segments:\n\n" ++
       bullet_list config failed "*"))]
  else [(PASS, rawMsg "No overlapping path segments found.")]

/-! ## googlefonts/family.py -/

/-- Insert one tnum glyph into the width dict (family.py lines 124-128):
a new width is appended in insertion order, an existing width gets the glyph
appended to its list. -/
def tnumAdd (m : List (Int × List String)) (w : Int) (g : String) :
    List (Int × List String) :=
  match m with
  | [] => [(w, [g])]
  | (w', gs) :: rest =>
    if w' = w then (w', gs ++ [g]) :: rest else (w', gs) :: tnumAdd rest w g

/-- Python `str.endswith`, evaluated over the character list. -/
def pyEndsWith (s suffix : String) : Bool := suffix.toList.isSuffixOf s.toList

/-- The `tnum_widths` dict built over all fonts of the RIBBI family
(family.py lines 116-128): tnum glyphs are those whose id ends in ".tnum". -/
def tnum_widths (RIBBI_ttFonts : List TTFont) : List (Int × List String) :=
  RIBBI_ttFonts.foldl
    (fun m ttFont =>
      (ttFont.glyphSet.filter (fun g => pyEndsWith g.name ".tnum")).foldl
        (fun m g => tnumAdd m g.width g.name) m)
    []

/-- The most-common-width loop (family.py lines 131-136): scan the dict,
keeping the first width whose glyph count strictly exceeds the running
maximum (initially 0, width None). -/
def tnumMostCommon (max_num : Nat) (most_common_width : Option Int) :
    List (Int × List String) → Nat × Option Int
  | [] => (max_num, most_common_width)
  | (width, glyphs) :: rest =>
    if glyphs.length > max_num then tnumMostCommon glyphs.length (some width) rest
    else tnumMostCommon max_num most_common_width rest

/-- `del tnum_widths[most_common_width]`. -/
def tnumErase (m : List (Int × List String)) (w : Int) : List (Int × List String) :=
  match m with
  | [] => []
  | (w', gs) :: rest => if w' = w then rest else (w', gs) :: tnumErase rest w

/-- Display text of the remaining width dict inside the FAIL message. -/
def tnumDictText (m : List (Int × List String)) : String :=
  String.intercalate ", "
    (m.map (fun p => toString p.1 ++ ": [" ++ String.intercalate ", " p.2 ++ "]"))

def tnumFailText (most_common_width : Int) (remaining : List (Int × List String)) :
    String :=
  "The most common tabular glyph width is " ++ toString most_common_width ++
  ". But there are other tabular glyphs with different widths such as the" ++
  " following ones:\n\t" ++ tnumDictText remaining ++ "."

/-- `com_google_fonts_check_family_tnum_horizontal_metrics`
(family.py lines 114-147).  When the dict has more than one key, the single
most common width is deleted and one FAIL lists the remaining dict; the
unreachable case where the loop never updated `most_common_width`
(`del d[None]`) is a KeyError. -/
def com_google_fonts_check_family_tnum_horizontal_metrics
    (RIBBI_ttFonts : List TTFont) : CheckRun :=
  let widths := tnum_widths RIBBI_ttFonts
  if widths.length > 1 then
    match (tnumMostCommon 0 none widths).2 with
    | none => ⟨[], some "KeyError: None"⟩
    | some most_common_width =>
      ⟨[(FAIL, msg "inconsistent-widths"
          (tnumFailText most_common_width (tnumErase widths most_common_width)))], none⟩
  else ⟨[(PASS, rawMsg "OK")], none⟩

/-- `"Italic" in f`. -/
def containsItalic (f : String) : Bool := (f.splitOn "Italic").length > 1

/-- The bad-filename WARN of one italic font, if any (family.py lines
61-67): the filename must contain a dash and end in exactly one extension. -/
def italicWarn (italic : String) : List Outcome :=
  if ((basename italic).splitOn "-").length ≤ 1 ∨
     ((((basename italic).splitOn "-").getLastD "").splitOn ".").length ≠ 2 then
    [(WARN, msg "bad-filename" ("Filename seems to be incorrect: " ++ italic))]
  else []

/-- The Roman counterpart filename expected for an italic font
(family.py lines 69-85). -/
def romanCounterpart (italic : String) : String :=
  let style0 := ((((basename italic).splitOn "-").getLastD "").splitOn ".").headD ""
  let is_varfont := (style0.splitOn "[").length > 1
  let style_from_filename :=
    if is_varfont then (style0.splitOn "[").headD "" else style0
  if style_from_filename = "Italic" then
    if is_varfont then italic.replace "-Italic" ""
    else italic.replace "Italic" "Regular"
  else italic.replace "Italic" ""

/-- Modelled from the spec: `fontbakery.utils.pretty_print_list` (outside the
given source files) renders a list of items as text. -/
def pretty_print_list (config : Config) (items : List String) : String :=
  String.intercalate ", " items

/-- `com_google_fonts_check_family_italics_have_roman_counterparts`
(family.py lines 55-98). -/
def com_google_fonts_check_family_italics_have_roman_counterparts
    (fonts : List String) (config : Config) : List Outcome :=
  let italics := fonts.filter containsItalic
  let loopOuts := italics.flatMap italicWarn
  let missing_roman := italics.filter (fun i => ¬ fonts.contains (romanCounterpart i))
  loopOuts ++
    (if missing_roman ≠ [] then
      [(FAIL, msg "missing-roman"
        ("Italics missing a Roman counterpart: " ++
         pretty_print_list { } missing_roman))]
    else [(PASS, rawMsg "OK")])

/-- Modelled from the spec: `canonical_stylename`
(googlefonts/conditions.py, outside the given source files) derives the style
name from a font filename; carried as a parameter. -/
abbrev StylenameFn := String → String

/-- `com_google_fonts_check_family_equal_codepoint_coverage`
(family.py lines 12-39): the cmap dict is keyed by canonical stylename; an
empty font list makes `cmap_list[0]` raise IndexError. -/
def com_google_fonts_check_family_equal_codepoint_coverage
    (canonical_stylename : StylenameFn) (ttFonts : List TTFont) (config : Config) :
    CheckRun :=
  let cmaps : List (String × List Nat) :=
    ttFonts.foldl
      (fun m ttFont =>
        let stylename := canonical_stylename ttFont.fileName
        let rec setIn : List (String × List Nat) → List (String × List Nat)
          | [] => [(stylename, ttFont.cmapCodepoints)]
          | (k, v) :: rest =>
            if k = stylename then (k, ttFont.cmapCodepoints) :: rest
            else (k, v) :: setIn rest
        setIn m)
      []
  match cmaps.map Prod.snd with
  | [] => ⟨[], some "IndexError: list index out of range"⟩
  | c0 :: restCmaps =>
    let common_cps := c0.filter (fun cp => restCmaps.all (fun c => c.contains cp))
    let problems := cmaps.filterMap (fun sc =>
      let residue := sc.2.filter (fun cp => ¬ common_cps.contains cp)
      if residue ≠ [] then
        some ("* " ++ sc.1 ++ " contains encoded codepoints not found in other" ++
              " related fonts: " ++ String.intercalate ", " (residue.map toString))
      else none)
    if problems ≠ [] then
      ⟨[(FAIL, msg "glyphset-diverges" (String.intercalate "\n" problems))], none⟩
    else
      ⟨[(PASS, rawMsg "All font files in this family have an equivalent encoded glyphset.")],
       none⟩

/-! ## opentype/cff.py

A decompiled Type 2 charstring program is a list of tokens: integers and
operator names.  `_traverse_subr_call_tree` recurses through subroutine
calls with no structural bound (subroutines may call each other cyclically),
so the embedding carries a fuel argument modelling the Python call stack:
each nested call consumes one unit, and exhaustion returns `none`.  The
claim theorems prove that any fuel above `11 - depth` yields the same `some`
result, which is exactly the termination argument of the source: recursion
returns once the depth exceeds 10. -/

/-- A token of a decompiled charstring program. -/
inductive CSToken where
  | num (n : Int)
  | op (s : String)
  deriving DecidableEq, Repr, Inhabited

/-- The subroutine environment read from `info` by the traversal: the global
subroutines, the private subroutines (absent when the private dict has no
Subrs), and the two biases. -/
structure SubrEnv where
  global_subrs : List (List CSToken)
  subrs : Option (List (List CSToken))
  gsubr_bias : Int
  subr_bias : Option Int
  deriving DecidableEq, Repr, Inhabited

/-- The mutable slots of `info` written by the traversal. -/
structure TravInfo where
  max_depth : Nat
  saw_endchar_seac : Bool
  saw_dotsection : Bool
  deriving DecidableEq, Repr, Inhabited

/-- `_get_subr_bias` (cff.py lines 16-23). -/
def _get_subr_bias (count : Nat) : Int :=
  if count < 1240 then 107
  else if count < 33900 then 1131
  else 32768

/-- Python `list.pop()`: remove and return the LAST element. -/
def listPop (l : List CSToken) : Option (CSToken × List CSToken) :=
  match l.getLast? with
  | none => none
  | some x => some (x, l.dropLast)

theorem listPop_length {l : List CSToken} {x : CSToken} {r : List CSToken}
    (h : listPop l = some (x, r)) : r.length < l.length := by
  unfold listPop at h
  rcases hl : l.getLast? with _ | y
  · simp [hl] at h
  · simp [hl] at h
    cases l with
    | nil => simp at hl
    | cons a as =>
      have : r = (a :: as).dropLast := h.2.symm
      subst this
      simp

/-- Python list indexing `l[i]`, including negative-index wrap-around;
`none` models IndexError. -/
def pyGet (l : List (List CSToken)) (i : Int) : Option (List CSToken) :=
  if 0 ≤ i then l.get? i.toNat
  else if (-i).toNat ≤ l.length then l.get? (l.length - (-i).toNat)
  else none

/-- `int(x)` on a popped token; an operator name is a ValueError. -/
def tokInt : CSToken → Option Int
  | .num n => some n
  | .op _ => none

def isIntToken : CSToken → Bool
  | .num _ => true
  | .op _ => false

/-- The endchar-seac pattern test (cff.py lines 39-44): the program ends in
`endchar` preceded by at least four integer arguments. -/
def sawEndcharSeacProgram (program : List CSToken) : Bool :=
  program.length ≥ 5 &&
  program.getLast? == some (.op "endchar") &&
  ((program.drop (program.length - 5)).take 4).all isIntToken

mutual

/-- `_traverse_subr_call_tree` (cff.py lines 26-57) with an explicit call
stack budget `fuel`; `none` is fuel exhaustion, `some (.error e)` a Python
exception, `some (.ok info)` normal return. -/
def _traverse_subr_call_tree (fuel : Nat) (env : SubrEnv) (info : TravInfo)
    (program : List CSToken) (depth : Nat) : Option (Except String TravInfo) :=
  match fuel with
  | 0 => none
  | f + 1 =>
    let info := if depth > info.max_depth then { info with max_depth := depth } else info
    -- once we exceed the max depth we can stop going deeper
    if depth > 10 then some (.ok info)
    else
      let info :=
        if sawEndcharSeacProgram program then { info with saw_endchar_seac := true }
        else info
      let info :=
        if program.contains (.op "ignore") then { info with saw_dotsection := true }
        else info
      subr_loop f env info program depth
termination_by (fuel, 0)
decreasing_by
  apply Prod.Lex.left
  omega

/-- The `while program:` loop of `_traverse_subr_call_tree`
(cff.py lines 48-57): pops tokens from the end, descending into subroutine
calls. -/
def subr_loop (f : Nat) (env : SubrEnv) (info : TravInfo)
    (program : List CSToken) (depth : Nat) : Option (Except String TravInfo) :=
  match h : listPop program with
  | none => some (.ok info)
  | some (x, rest) =>
    if x = .op "callgsubr" then
      match h2 : listPop rest with
      | none => some (.error "IndexError: pop from empty list")
      | some (ytok, rest2) =>
        match tokInt ytok with
        | none => some (.error "ValueError: invalid literal for int")
        | some yv =>
          match pyGet env.global_subrs (yv + env.gsubr_bias) with
          | none => some (.error "IndexError: list index out of range")
          | some sub_program =>
            match _traverse_subr_call_tree f env info sub_program (depth + 1) with
            | none => none
            | some (.error e) => some (.error e)
            | some (.ok info2) => subr_loop f env info2 rest2 depth
    else if x = .op "callsubr" then
      match env.subrs, env.subr_bias with
      | none, _ => some (.error "TypeError: NoneType")
      | _, none => some (.error "TypeError: NoneType")
      | some subrs, some subr_bias =>
        match h3 : listPop rest with
        | none => some (.error "IndexError: pop from empty list")
        | some (ytok, rest2) =>
          match tokInt ytok with
          | none => some (.error "ValueError: invalid literal for int")
          | some yv =>
            match pyGet subrs (yv + subr_bias) with
            | none => some (.error "IndexError: list index out of range")
            | some sub_program =>
              match _traverse_subr_call_tree f env info sub_program (depth + 1) with
              | none => none
              | some (.error e) => some (.error e)
              | some (.ok info2) => subr_loop f env info2 rest2 depth
    else subr_loop f env info rest depth
termination_by (f, program.length + 1)
decreasing_by
  · apply Prod.Lex.right
    omega
  · apply Prod.Lex.right
    have p1 := listPop_length h
    have p2 := listPop_length h2
    omega
  · apply Prod.Lex.right
    omega
  · apply Prod.Lex.right
    have p1 := listPop_length h
    have p2 := listPop_length h3
    omega
  · apply Prod.Lex.right
    have p1 := listPop_length h
    omega

end

/-- `CFFAnalysis` (cff.py lines 7-13); `string_not_ascii` becomes `none` when
the CFF table cannot be decoded. -/
structure CFFAnalysis where
  glyphs_dotsection : List String
  glyphs_endchar_seac : List String
  glyphs_exceed_max : List String
  glyphs_recursion_errors : List String
  string_not_ascii : Option (List (String × String))
  deriving DecidableEq, Repr, Inhabited

def emptyCFFAnalysis : CFFAnalysis := ⟨[], [], [], [], some []⟩

/-- One entry of `top_dict.CharStrings`: the glyph name, the FDSelect index
reported by `getItemAndSelector` (None for non-CID fonts), whether fontTools
`decompile()` raises RecursionError on it, and its decompiled program. -/
structure CharStringEntry where
  glyphName : String
  fdSelectIndex : Option Nat
  decompileRecursionError : Bool
  program : List CSToken
  deriving DecidableEq, Repr, Inhabited

/-- The top dict fields `_analyze_cff` reads. -/
structure TopDict where
  CharStrings : List CharStringEntry
  GlobalSubrs : List (List CSToken)
  rawDict : Option (List (String × String))
  deriving DecidableEq, Repr, Inhabited

/-- A private dict; `Subrs` is absent when the dict has no subroutines. -/
structure PrivateDict where
  Subrs : Option (List (List CSToken))
  deriving DecidableEq, Repr, Inhabited

def RAW_DICT_KEYS : List String :=
  ["Notice", "Copyright", "FontName", "FullName", "FamilyName"]

def rawDictGet (d : List (String × String)) (k : String) : String :=
  ((d.find? (fun p => p.1 == k)).map Prod.snd).getD ""

/-- The non-ASCII string scan of `_analyze_cff` (cff.py lines 65-71). -/
def stringNotAsciiScan (raw_dict : List (String × String)) : List (String × String) :=
  RAW_DICT_KEYS.filterMap (fun key =>
    if (rawDictGet raw_dict key).toList.any (fun c => c.toNat > 0x7F) then
      some (key, rawDictGet raw_dict key)
    else none)

/-- The glyph loop of `_analyze_cff` (cff.py lines 82-107): runs the subr
traversal on each applicable glyph and classifies it; a traversal exception
propagates, fuel exhaustion is `none`. -/
def analyzeLoop (fuel : Nat) (env : SubrEnv) (fd_index : Nat) (analysis : CFFAnalysis) :
    List CharStringEntry → Option (Except String CFFAnalysis)
  | [] => some (.ok analysis)
  | e :: rest =>
    if e.fdSelectIndex.isSome ∧ e.fdSelectIndex ≠ some fd_index then
      analyzeLoop fuel env fd_index analysis rest
    else if e.decompileRecursionError then
      analyzeLoop fuel env fd_index
        { analysis with
          glyphs_recursion_errors := analysis.glyphs_recursion_errors ++ [e.glyphName] }
        rest
    else
      match _traverse_subr_call_tree fuel env ⟨0, false, false⟩ e.program 0 with
      | none => none
      | some (.error err) => some (.error err)
      | some (.ok info) =>
        let analysis :=
          if info.max_depth > 10 then
            { analysis with glyphs_exceed_max := analysis.glyphs_exceed_max ++ [e.glyphName] }
          else analysis
        let analysis :=
          if info.saw_endchar_seac then
            { analysis with
              glyphs_endchar_seac := analysis.glyphs_endchar_seac ++ [e.glyphName] }
          else analysis
        let analysis :=
          if info.saw_dotsection then
            { analysis with
              glyphs_dotsection := analysis.glyphs_dotsection ++ [e.glyphName] }
          else analysis
        analyzeLoop fuel env fd_index analysis rest

/-- `_analyze_cff` (cff.py lines 60-107). -/
def _analyze_cff (fuel : Nat) (analysis : CFFAnalysis) (top_dict : TopDict)
    (private_dict : Option PrivateDict) (fd_index : Nat) :
    Option (Except String CFFAnalysis) :=
  let global_subrs := top_dict.GlobalSubrs
  let gsubr_bias := _get_subr_bias global_subrs.length
  let analysis :=
    match top_dict.rawDict with
    | some raw_dict =>
      { analysis with
        string_not_ascii := analysis.string_not_ascii.map
          (fun l => l ++ stringNotAsciiScan raw_dict) }
    | none => analysis
  let sb : Option (List (List CSToken)) × Option Int :=
    match private_dict with
    | some pd =>
      match pd.Subrs with
      | some s => (some s, some (_get_subr_bias s.length))
      | none => (none, none)
    | none => (none, none)
  analyzeLoop fuel ⟨global_subrs, sb.1, gsubr_bias, sb.2⟩ fd_index analysis
    top_dict.CharStrings

/-- The exceed-max classification of one glyph (cff.py lines 96-103): the
glyph joins `glyphs_exceed_max` exactly when the traversal from depth 0
reports `max_depth > 10`. -/
def glyphExceedsMax (fuel : Nat) (env : SubrEnv) (program : List CSToken) :
    Option (Except String Bool) :=
  match _traverse_subr_call_tree fuel env ⟨0, false, false⟩ program 0 with
  | none => none
  | some (.error e) => some (.error e)
  | some (.ok info) => some (.ok (info.max_depth > 10))

/-- `check_cff_call_depth` (cff.py lines 165-178): note there is no branch
for the problem-free case, so nothing is emitted then. -/
def check_cff_call_depth (analysis : CFFAnalysis) : List Outcome :=
  if analysis.glyphs_exceed_max ≠ [] ∨ analysis.glyphs_recursion_errors ≠ [] then
    analysis.glyphs_exceed_max.map (fun gn =>
      (FAIL, msg "max-depth"
        ("Subroutine call depth exceeded maximum of 10 for glyph \"" ++ gn ++ "\"."))) ++
    analysis.glyphs_recursion_errors.map (fun gn =>
      (FAIL, msg "recursion-error"
        ("Recursion error while decompiling glyph \"" ++ gn ++ "\".")))
  else []

/-- `check_cff2_call_depth` (cff.py lines 189-203): same body as
`check_cff_call_depth`. -/
def check_cff2_call_depth (analysis : CFFAnalysis) : List Outcome :=
  if analysis.glyphs_exceed_max ≠ [] ∨ analysis.glyphs_recursion_errors ≠ [] then
    analysis.glyphs_exceed_max.map (fun gn =>
      (FAIL, msg "max-depth"
        ("Subroutine call depth exceeded maximum of 10 for glyph \"" ++ gn ++ "\"."))) ++
    analysis.glyphs_recursion_errors.map (fun gn =>
      (FAIL, msg "recursion-error"
        ("Recursion error while decompiling glyph \"" ++ gn ++ "\".")))
  else []

/-- `check_cff_deprecated_operators` (cff.py lines 219-233): emits only when
a deprecated use was found. -/
def check_cff_deprecated_operators (cff_analysis : CFFAnalysis) : List Outcome :=
  if cff_analysis.glyphs_dotsection ≠ [] ∨ cff_analysis.glyphs_endchar_seac ≠ [] then
    cff_analysis.glyphs_dotsection.map (fun gn =>
      (WARN, msg "deprecated-operator-dotsection"
        ("Glyph \"" ++ gn ++ "\" uses deprecated \"dotsection\" operator."))) ++
    cff_analysis.glyphs_endchar_seac.map (fun gn =>
      (FAIL, msg "deprecated-operation-endchar-seac"
        ("Glyph \"" ++ gn ++ "\" has deprecated use of \"endchar\" operator" ++
         " to build accented characters (seac).")))
  else []

/-- `check_cff_ascii_strings` (cff.py lines 244-264): emits only on a decode
failure or when some top dict string falls outside ASCII. -/
def check_cff_ascii_strings (cff_analysis : CFFAnalysis) : List Outcome :=
  match cff_analysis.string_not_ascii with
  | none =>
    [(FAIL, msg "cff-unable-to-decode"
      ("Unable to decode CFF table, possibly due to out of ASCII range strings." ++
       " Please check table strings."))]
  | some l =>
    if l ≠ [] then
      [(FAIL, msg "cff-string-not-in-ascii-range"
        ("The following CFF TopDict strings are not in the ASCII range: " ++
         String.intercalate ", " (l.map (fun p => p.1 ++ ": " ++ p.2))))]
    else []

/-- One entry of `cff.topDictIndex` as `cff_analysis` walks it: the top dict,
the optional FDArray (each font dict carrying an optional private dict), and
the optional top-level private dict. -/
structure CFFTopEntry where
  top : TopDict
  FDArray : Option (List (Option PrivateDict))
  Private : Option PrivateDict
  deriving DecidableEq, Repr, Inhabited

/-- The CFF (or CFF2) table of a freshly loaded font; `decodeError` models
the UnicodeDecodeError that `ttFont["CFF "].cff` can raise. -/
structure CFFTableData where
  decodeError : Bool
  topDictIndex : List CFFTopEntry
  deriving DecidableEq, Repr, Inhabited

/-- The private, freshly loaded fontTools object the `cff_analysis` condition
decompiles.  `mutations` counts the in-place mutations decompiling performs
on this object (never on the shared entity). -/
structure LoadedTTFont where
  cff : Option CFFTableData
  cff2 : Option CFFTableData
  mutations : Nat
  deriving DecidableEq, Repr, Inhabited

/-- A testable entity: canonical identity (path plus optional TTC index) and
the decoded font object shared through the condition cache. -/
structure FontEntity where
  file : String
  ttcIndex : Option Nat
  sharedTTFont : MutTTFont
  deriving DecidableEq, Repr, Inhabited

/-- The FDArray loop of `cff_analysis` (cff.py lines 128-134 and 145-151):
analyze each font dict at its index. -/
def analyzeFDs (fuel : Nat) (analysis : CFFAnalysis) (top : TopDict) :
    Nat → List (Option PrivateDict) → Option (Except String CFFAnalysis)
  | _, [] => some (.ok analysis)
  | fd_index, pd :: rest =>
    match _analyze_cff fuel analysis top pd fd_index with
    | none => none
    | some (.error e) => some (.error e)
    | some (.ok a2) => analyzeFDs fuel a2 top (fd_index + 1) rest

/-- The topDictIndex loop for the `"CFF "` branch of `cff_analysis`
(cff.py lines 127-140). -/
def analyzeTops (fuel : Nat) (analysis : CFFAnalysis) :
    List CFFTopEntry → Option (Except String CFFAnalysis)
  | [] => some (.ok analysis)
  | e :: rest =>
    match e.FDArray with
    | some fds =>
      match analyzeFDs fuel analysis e.top 0 fds with
      | none => none
      | some (.error err) => some (.error err)
      | some (.ok a2) => analyzeTops fuel a2 rest
    | none =>
      match _analyze_cff fuel analysis e.top e.Private 0 with
      | none => none
      | some (.error err) => some (.error err)
      | some (.ok a2) => analyzeTops fuel a2 rest

/-- The topDictIndex loop for the CFF2 branch of `cff_analysis`
(cff.py lines 145-151); CFF2 accesses `top_dict.FDArray` unconditionally, so
its absence is an AttributeError. -/
def analyzeTops2 (fuel : Nat) (analysis : CFFAnalysis) :
    List CFFTopEntry → Option (Except String CFFAnalysis)
  | [] => some (.ok analysis)
  | e :: rest =>
    match e.FDArray with
    | none => some (.error "AttributeError: FDArray")
    | some fds =>
      match analyzeFDs fuel analysis e.top 0 fds with
      | none => none
      | some (.error err) => some (.error err)
      | some (.ok a2) => analyzeTops2 fuel a2 rest

/-- `cff_analysis` condition (cff.py lines 110-153): decompiles a FRESHLY
loaded private `TTFont(font.file)` (with the TTC font number when the entity
is a collection member) and never the entity held in the shared cache; the
second component is the entity as left in the cache after evaluation. -/
def cff_analysis (load : String → Option Nat → LoadedTTFont) (fuel : Nat)
    (font : FontEntity) : Option (Except String CFFAnalysis) × FontEntity :=
  let analysis := emptyCFFAnalysis
  -- Use our own copy here since we are decompiling
  let ttFont :=
    match font.ttcIndex with
    | some index => load font.file (some index)
    | none => load font.file none
  match ttFont.cff with
  | some cffTable =>
    if cffTable.decodeError then
      (some (.ok { analysis with string_not_ascii := none }), font)
    else (analyzeTops fuel analysis cffTable.topDictIndex, font)
  | none =>
    match ttFont.cff2 with
    | some cffTable => (analyzeTops2 fuel analysis cffTable.topDictIndex, font)
    | none => (some (.ok analysis), font)

/-! ## The Check Runner verdict rule (spec section 4.3)

Modelled from the spec: the Check Runner itself is not among the given
source files.  The overall verdict of a (check, entity) pair is the
highest-severity emission under the total order
ERROR > FAIL > WARN > SKIP > PASS > INFO/DEBUG; informational emissions
never raise the verdict, and a check whose emissions contain no substantive
outcome (nothing at all, or only INFO/DEBUG) is an engine-level ERROR. -/

/-- The severity total order of spec section 4.3, as a rank. -/
def severityRank : Severity → Nat
  | ERROR => 6
  | FAIL => 5
  | WARN => 4
  | SKIP => 3
  | PASS => 2
  | INFO => 1
  | DEBUG => 1

/-- A substantive (non-informational) emission. -/
def substantive (s : Severity) : Bool := s ≠ INFO ∧ s ≠ DEBUG

/-- Modelled from the spec: the verdict derivation of the Check Runner
(spec section 4.3). -/
def overallVerdict (emissions : List Severity) : Severity :=
  match emissions.filter substantive with
  | [] => ERROR
  | s :: rest => rest.foldl (fun a b => if severityRank b > severityRank a then b else a) s

/-! ## Emission relations for determinism (claim C7)

The two cited check bodies are given a small-step relational semantics
mirroring their generator structure; determinism is functionality of these
relations, and soundness ties them to the functional embeddings above. -/

/-- Relational semantics of the glyph loop of `check_outline_alignment_miss`:
`AMLoopEmits cfg alignments acc gs out` holds when the loop, entered with
accumulated warnings `acc` and remaining glyphs `gs`, emits `out`. -/
inductive AMLoopEmits (config : Config) (alignments : List (String × ℚ)) :
    List String → OutlinesDict → List Outcome → Prop where
  | nilWarn (acc : List String) :
      acc ≠ [] →
      AMLoopEmits config alignments acc []
        [(WARN, msg "found-misalignments" (amFoundText config acc))]
  | nilPass (acc : List String) :
      acc = [] →
      AMLoopEmits config alignments acc [] [(PASS, rawMsg amPassText)]
  | cutoff (acc : List String) (g : (String × String) × List OPath) (rest : OutlinesDict) :
      (acc ++ amWarnings alignments g).length > FALSE_POSITIVE_CUTOFF →
      AMLoopEmits config alignments acc (g :: rest) [(PASS, rawMsg amCutoffText)]
  | step (acc : List String) (g : (String × String) × List OPath) (rest : OutlinesDict)
      (out : List Outcome) :
      (acc ++ amWarnings alignments g).length ≤ FALSE_POSITIVE_CUTOFF →
      AMLoopEmits config alignments (acc ++ amWarnings alignments g) rest out →
      AMLoopEmits config alignments acc (g :: rest) out

/-- Relational semantics of `check_outline_alignment_miss` as a whole. -/
inductive AMEmits (ttFont : TTFont) (outlines_dict : OutlinesDict) (config : Config) :
    CheckRun → Prop where
  | noOS2 :
      ttFont.os2 = none →
      AMEmits ttFont outlines_dict config ⟨[], some "KeyError: OS/2"⟩
  | run (os2_table : OS2Table) (out : List Outcome) :
      ttFont.os2 = some os2_table →
      AMLoopEmits config (amAlignments os2_table) [] outlines_dict out →
      AMEmits ttFont outlines_dict config ⟨amPre os2_table ++ out, none⟩

/-- Relational semantics of
`com_google_fonts_check_family_tnum_horizontal_metrics`. -/
inductive TnumEmits (RIBBI_ttFonts : List TTFont) : CheckRun → Prop where
  | inconsistent (most_common_width : Int) :
      (tnum_widths RIBBI_ttFonts).length > 1 →
      (tnumMostCommon 0 none (tnum_widths RIBBI_ttFonts)).2 = some most_common_width →
      TnumEmits RIBBI_ttFonts
        ⟨[(FAIL, msg "inconsistent-widths"
            (tnumFailText most_common_width
              (tnumErase (tnum_widths RIBBI_ttFonts) most_common_width)))], none⟩
  | keyError :
      (tnum_widths RIBBI_ttFonts).length > 1 →
      (tnumMostCommon 0 none (tnum_widths RIBBI_ttFonts)).2 = none →
      TnumEmits RIBBI_ttFonts ⟨[], some "KeyError: None"⟩
  | consistent :
      (tnum_widths RIBBI_ttFonts).length ≤ 1 →
      TnumEmits RIBBI_ttFonts ⟨[(PASS, rawMsg "OK")], none⟩

/-! ## Helper lemmas -/

theorem vmetrics_fold_spec (l : List TTFont) :
    ∀ init : VMetricsDict,
      (l.foldl
        (fun v_metrics ttFont =>
          let fb := get_bounding_box ttFont
          { ymin := min fb.1 v_metrics.ymin, ymax := max fb.2 v_metrics.ymax })
        init).ymin ≤ init.ymin ∧
      init.ymax ≤ (l.foldl
        (fun v_metrics ttFont =>
          let fb := get_bounding_box ttFont
          { ymin := min fb.1 v_metrics.ymin, ymax := max fb.2 v_metrics.ymax })
        init).ymax ∧
      (∀ f ∈ l,
        (l.foldl
          (fun v_metrics ttFont =>
            let fb := get_bounding_box ttFont
            { ymin := min fb.1 v_metrics.ymin, ymax := max fb.2 v_metrics.ymax })
          init).ymin ≤ f.bbYMin ∧
        f.bbYMax ≤ (l.foldl
          (fun v_metrics ttFont =>
            let fb := get_bounding_box ttFont
            { ymin := min fb.1 v_metrics.ymin, ymax := max fb.2 v_metrics.ymax })
          init).ymax) ∧
      ((l.foldl
          (fun v_metrics ttFont =>
            let fb := get_bounding_box ttFont
            { ymin := min fb.1 v_metrics.ymin, ymax := max fb.2 v_metrics.ymax })
          init).ymin = init.ymin ∨
        ∃ f ∈ l, (l.foldl
          (fun v_metrics ttFont =>
            let fb := get_bounding_box ttFont
            { ymin := min fb.1 v_metrics.ymin, ymax := max fb.2 v_metrics.ymax })
          init).ymin = f.bbYMin) ∧
      ((l.foldl
          (fun v_metrics ttFont =>
            let fb := get_bounding_box ttFont
            { ymin := min fb.1 v_metrics.ymin, ymax := max fb.2 v_metrics.ymax })
          init).ymax = init.ymax ∨
        ∃ f ∈ l, (l.foldl
          (fun v_metrics ttFont =>
            let fb := get_bounding_box ttFont
            { ymin := min fb.1 v_metrics.ymin, ymax := max fb.2 v_metrics.ymax })
          init).ymax = f.bbYMax) := by
  induction l with
  | nil => intro init; simp
  | cons a t ih =>
    intro init
    simp only [List.foldl_cons]
    obtain ⟨h1, h2, h3, h4, h5⟩ :=
      ih { ymin := min (get_bounding_box a).1 init.ymin,
           ymax := max (get_bounding_box a).2 init.ymax }
    refine ⟨?_, ?_, ?_, ?_, ?_⟩
    · exact le_trans h1 (by simp [get_bounding_box])
    · exact le_trans (by simp [get_bounding_box]) h2
    · intro f hf
      rcases List.mem_cons.mp hf with hf | hf
      · subst hf
        constructor
        · exact le_trans h1 (by simp [get_bounding_box])
        · exact le_trans (by simp [get_bounding_box]) h2
      · exact h3 f hf
    · rcases h4 with h4 | ⟨f, hf, hfe⟩
      · rw [h4]
        simp only [get_bounding_box] at *
        rcases le_total a.bbYMin init.ymin with hc | hc
        · exact Or.inr ⟨a, by simp, by simp [min_eq_left hc]⟩
        · exact Or.inl (by simp [min_eq_right hc])
      · exact Or.inr ⟨f, by simp [hf], hfe⟩
    · rcases h5 with h5 | ⟨f, hf, hfe⟩
      · rw [h5]
        simp only [get_bounding_box] at *
        rcases le_total a.bbYMax init.ymax with hc | hc
        · exact Or.inl (by simp [max_eq_right hc])
        · exact Or.inr ⟨a, by simp, by simp [max_eq_left hc]⟩
      · exact Or.inr ⟨f, by simp [hf], hfe⟩

/-- C8: for every font collection (the empty one included), the `vmetrics`
condition returns a dict with `ymin ≤ 0 ≤ ymax`, where `ymin` is the minimum
of 0 and every font bounding-box yMin and `ymax` is the maximum of 0 and
every font bounding-box yMax; on the empty collection it returns
`ymin = 0, ymax = 0`. -/
theorem C8_vmetrics_invariant :
    vmetrics [] = { ymin := 0, ymax := 0 } ∧
    ∀ collection : List TTFont,
      (vmetrics collection).ymin ≤ 0 ∧ 0 ≤ (vmetrics collection).ymax ∧
      (∀ f ∈ collection,
        (vmetrics collection).ymin ≤ f.bbYMin ∧ f.bbYMax ≤ (vmetrics collection).ymax) ∧
      ((vmetrics collection).ymin = 0 ∨
        ∃ f ∈ collection, (vmetrics collection).ymin = f.bbYMin) ∧
      ((vmetrics collection).ymax = 0 ∨
        ∃ f ∈ collection, (vmetrics collection).ymax = f.bbYMax) := by
  refine ⟨rfl, fun collection => ?_⟩
  have h := vmetrics_fold_spec collection { ymin := 0, ymax := 0 }
  exact h

/-- C8 witness. -/
theorem C8_vmetrics_invariant_witness :
    (vmetrics [{ fileName := "a", fullName := "a", os2 := none, hhea := none,
                 head := none, glyphSet := [], bbYMin := -5, bbYMax := 7,
                 cmapCodepoints := [] }]).ymin ≤ -5 := by
  have h := (C8_vmetrics_invariant.2
    [{ fileName := "a", fullName := "a", os2 := none, hhea := none,
       head := none, glyphSet := [], bbYMin := -5, bbYMax := 7,
       cmapCodepoints := [] }]).2.2.1
      { fileName := "a", fullName := "a", os2 := none, hhea := none,
        head := none, glyphSet := [], bbYMin := -5, bbYMax := 7,
        cmapCodepoints := [] } (by simp)
  exact h.1

theorem verdict_fold_spec (rest : List Severity) :
    ∀ s : Severity,
      ((rest.foldl (fun a b => if severityRank b > severityRank a then b else a) s) = s ∨
        (rest.foldl (fun a b => if severityRank b > severityRank a then b else a) s) ∈ rest) ∧
      severityRank s ≤
        severityRank (rest.foldl (fun a b => if severityRank b > severityRank a then b else a) s) ∧
      ∀ x ∈ rest,
        severityRank x ≤
          severityRank (rest.foldl (fun a b => if severityRank b > severityRank a then b else a) s) := by
  induction rest with
  | nil => intro s; simp
  | cons b t ih =>
    intro s
    simp only [List.foldl_cons]
    by_cases hb : severityRank b > severityRank s
    · obtain ⟨m1, m2, m3⟩ := ih b
      rw [if_pos hb]
      refine ⟨?_, ?_, ?_⟩
      · rcases m1 with m1 | m1
        · exact Or.inr (by simp [m1])
        · exact Or.inr (by simp [m1])
      · omega
      · intro x hx
        rcases List.mem_cons.mp hx with hx | hx
        · subst hx; exact m2
        · exact m3 x hx
    · obtain ⟨m1, m2, m3⟩ := ih s
      rw [if_neg hb]
      refine ⟨?_, ?_, ?_⟩
      · rcases m1 with m1 | m1
        · exact Or.inl m1
        · exact Or.inr (by simp [m1])
      · exact m2
      · intro x hx
        rcases List.mem_cons.mp hx with hx | hx
        · subst hx; omega
        · exact m3 x hx

theorem substantive_rank_ge {s : Severity} (h : substantive s = true) :
    2 ≤ severityRank s := by
  cases s <;> simp [substantive] at h ⊢ <;> simp [severityRank]

theorem informational_rank {s : Severity} (h : substantive s = false) :
    severityRank s ≤ 1 := by
  cases s <;> simp [substantive] at h ⊢ <;> simp [severityRank]

/-- C6: the overall verdict of a (check, entity) pair is the highest-severity
emission under the total order ERROR > FAIL > WARN > SKIP > PASS > INFO/DEBUG
whenever a substantive emission exists; [PASS, WARN, PASS] gives WARN,
[WARN, FAIL] gives FAIL; appending an informational emission never changes
(in particular never raises) the verdict, and only-informational emissions
are the engine ERROR of the spec. -/
theorem C6_verdict_precedence :
    (∀ l : List Severity, (∃ s ∈ l, substantive s = true) →
      overallVerdict l ∈ l ∧ ∀ s ∈ l, severityRank s ≤ severityRank (overallVerdict l)) ∧
    overallVerdict [PASS, WARN, PASS] = WARN ∧
    overallVerdict [WARN, FAIL] = FAIL ∧
    (∀ (l : List Severity) (s : Severity), substantive s = false →
      overallVerdict (l ++ [s]) = overallVerdict l) ∧
    overallVerdict [INFO] = ERROR := by
  refine ⟨?_, by decide, by decide, ?_, by decide⟩
  · intro l ⟨s0, hs0, hsub⟩
    have hmem : s0 ∈ l.filter substantive := List.mem_filter.mpr ⟨hs0, hsub⟩
    unfold overallVerdict
    rcases hf : l.filter substantive with _ | ⟨a, rest⟩
    · rw [hf] at hmem; simp at hmem
    · dsimp only
      obtain ⟨m1, m2, m3⟩ := verdict_fold_spec rest a
      set r := rest.foldl (fun a b => if severityRank b > severityRank a then b else a) a
        with hr
      have hrmem : r ∈ l.filter substantive := by
        rw [hf]
        rcases m1 with m1 | m1
        · exact m1 ▸ List.mem_cons_self a rest
        · exact List.mem_cons_of_mem a m1
      constructor
      · exact (List.mem_filter.mp hrmem).1
      · intro s hs
        by_cases hsb : substantive s = true
        · have : s ∈ l.filter substantive := List.mem_filter.mpr ⟨hs, hsb⟩
          rw [hf] at this
          rcases List.mem_cons.mp this with h | h
          · subst h; exact m2
          · exact m3 s h
        · have h1 : severityRank s ≤ 1 :=
            informational_rank (by simpa using hsb)
          have h2 : 2 ≤ severityRank r :=
            substantive_rank_ge (List.mem_filter.mp hrmem).2
          omega
  · intro l s hs
    unfold overallVerdict
    rw [List.filter_append]
    simp [List.filter, hs]

/-- C6 witness. -/
theorem C6_verdict_precedence_witness :
    overallVerdict [PASS, INFO] ∈ [PASS, INFO] ∧
    ∀ s ∈ [PASS, INFO], severityRank s ≤ severityRank (overallVerdict [PASS, INFO]) := by
  exact C6_verdict_precedence.1 [PASS, INFO] ⟨PASS, by simp, by decide⟩

/-- C5: neither the `check_typoascender_exceeds_Agrave` body nor the
`cff_analysis` condition mutates the shared entity it reads: the body draws
only on a deep copy of the font, the condition decompiles only a freshly
loaded private font, and in every case the object left in the shared cache
is exactly the input object (same mutation count). -/
theorem C5_no_shared_entity_mutation :
    (∀ ttFont : MutTTFont,
      (check_typoascender_exceeds_Agrave ttFont).2 = ttFont ∧
      (check_typoascender_exceeds_Agrave ttFont).2.timesMutated = ttFont.timesMutated) ∧
    (∀ (load : String → Option Nat → LoadedTTFont) (fuel : Nat) (font : FontEntity),
      (cff_analysis load fuel font).2 = font ∧
      (cff_analysis load fuel font).2.sharedTTFont.timesMutated =
        font.sharedTTFont.timesMutated) := by
  constructor
  · intro ttFont
    have h : (check_typoascender_exceeds_Agrave ttFont).2 = ttFont := by
      unfold check_typoascender_exceeds_Agrave
      dsimp only
      repeat' first | rfl | split
    exact ⟨h, by rw [h]⟩
  · intro load fuel font
    have h : (cff_analysis load fuel font).2 = font := by
      unfold cff_analysis
      dsimp only
      repeat' first | rfl | split
    exact ⟨h, by rw [h]⟩
theorem tnumMostCommon_spec :
    ∀ (m : List (Int × List String)) (mx : Nat) (mcw : Option Int),
      mx ≤ (tnumMostCommon mx mcw m).1 ∧
      (∀ p ∈ m, p.2.length ≤ (tnumMostCommon mx mcw m).1) ∧
      (((tnumMostCommon mx mcw m).2 = mcw ∧ (tnumMostCommon mx mcw m).1 = mx) ∨
        ∃ p ∈ m, (tnumMostCommon mx mcw m).2 = some p.1 ∧
          (tnumMostCommon mx mcw m).1 = p.2.length) := by
  intro m
  induction m with
  | nil => intro mx mcw; simp [tnumMostCommon]
  | cons p t ih =>
    intro mx mcw
    simp only [tnumMostCommon]
    by_cases h : p.2.length > mx
    · rw [if_pos h]
      obtain ⟨m1, m2, m3⟩ := ih p.2.length (some p.1)
      refine ⟨by omega, ?_, ?_⟩
      · intro q hq
        rcases List.mem_cons.mp hq with hq | hq
        · subst hq; exact m1
        · exact m2 q hq
      · rcases m3 with ⟨ha, hb⟩ | ⟨q, hq, ha, hb⟩
        · exact Or.inr ⟨p, List.mem_cons_self p t, ha, hb⟩
        · exact Or.inr ⟨q, List.mem_cons_of_mem p hq, ha, hb⟩
    · rw [if_neg h]
      obtain ⟨m1, m2, m3⟩ := ih mx mcw
      refine ⟨m1, ?_, ?_⟩
      · intro q hq
        rcases List.mem_cons.mp hq with hq | hq
        · subst hq; omega
        · exact m2 q hq
      · rcases m3 with ⟨ha, hb⟩ | ⟨q, hq, ha, hb⟩
        · exact Or.inl ⟨ha, hb⟩
        · exact Or.inr ⟨q, List.mem_cons_of_mem p hq, ha, hb⟩

theorem tnumAdd_nonempty (w : Int) (g : String) :
    ∀ m : List (Int × List String), (∀ p ∈ m, p.2 ≠ []) →
      ∀ p ∈ tnumAdd m w g, p.2 ≠ [] := by
  intro m
  induction m with
  | nil => intro h; simp [tnumAdd]
  | cons q t ih =>
    intro h
    simp only [tnumAdd]
    by_cases hq : q.1 = w
    · rw [if_pos hq]
      intro p hp
      rcases List.mem_cons.mp hp with hp | hp
      · subst hp; simp
      · exact h p (List.mem_cons_of_mem q hp)
    · rw [if_neg hq]
      intro p hp
      rcases List.mem_cons.mp hp with hp | hp
      · subst hp; exact h q (List.mem_cons_self q t)
      · exact ih (fun r hr => h r (List.mem_cons_of_mem q hr)) p hp

theorem tnum_glyphfold_nonempty (gl : List SimpleGlyph) :
    ∀ m : List (Int × List String), (∀ p ∈ m, p.2 ≠ []) →
      ∀ p ∈ gl.foldl (fun m g => tnumAdd m g.width g.name) m, p.2 ≠ [] := by
  induction gl with
  | nil => intro m h; simpa using h
  | cons g t ih =>
    intro m h
    simp only [List.foldl_cons]
    exact ih (tnumAdd m g.width g.name) (tnumAdd_nonempty g.width g.name m h)

theorem tnum_widths_nonempty (fonts : List TTFont) :
    ∀ p ∈ tnum_widths fonts, p.2 ≠ [] := by
  unfold tnum_widths
  have gen : ∀ (fs : List TTFont) (m : List (Int × List String)), (∀ p ∈ m, p.2 ≠ []) →
      ∀ p ∈ fs.foldl
        (fun m ttFont =>
          (ttFont.glyphSet.filter (fun g => pyEndsWith g.name ".tnum")).foldl
            (fun m g => tnumAdd m g.width g.name) m) m, p.2 ≠ [] := by
    intro fs
    induction fs with
    | nil => intro m h; simpa using h
    | cons f t ih =>
      intro m h
      simp only [List.foldl_cons]
      exact ih _ (tnum_glyphfold_nonempty _ m h)
  exact gen fonts [] (by simp)

theorem tnumErase_keys (m : List (Int × List String)) (w : Int) :
    (tnumErase m w).map Prod.fst = (m.map Prod.fst).erase w := by
  induction m with
  | nil => simp [tnumErase]
  | cons p t ih =>
    simp only [tnumErase]
    by_cases h : p.1 = w
    · rw [if_pos h]
      simp [h]
    · rw [if_neg h]
      simp only [List.map_cons]
      rw [List.erase_cons_tail (by simpa using h)]
      rw [ih]
theorem C3_tnum_horizontal_metrics (RIBBI_ttFonts : List TTFont) :
    ((tnum_widths RIBBI_ttFonts).length ≤ 1 →
      com_google_fonts_check_family_tnum_horizontal_metrics RIBBI_ttFonts =
        ⟨[(PASS, rawMsg "OK")], none⟩) ∧
    ((tnum_widths RIBBI_ttFonts).length > 1 →
      ∃ w glyphs,
        (w, glyphs) ∈ tnum_widths RIBBI_ttFonts ∧
        (∀ p ∈ tnum_widths RIBBI_ttFonts, p.2.length ≤ glyphs.length) ∧
        (tnumErase (tnum_widths RIBBI_ttFonts) w).map Prod.fst =
          ((tnum_widths RIBBI_ttFonts).map Prod.fst).erase w ∧
        com_google_fonts_check_family_tnum_horizontal_metrics RIBBI_ttFonts =
          ⟨[(FAIL, msg "inconsistent-widths"
              (tnumFailText w (tnumErase (tnum_widths RIBBI_ttFonts) w)))], none⟩) := by
  constructor
  · intro h
    unfold com_google_fonts_check_family_tnum_horizontal_metrics
    rw [if_neg (by omega)]
  · intro h
    obtain ⟨m1, m2, m3⟩ := tnumMostCommon_spec (tnum_widths RIBBI_ttFonts) 0 none
    rcases m3 with ⟨ha, hb⟩ | ⟨p, hp, ha, hb⟩
    · exfalso
      rcases hm : tnum_widths RIBBI_ttFonts with _ | ⟨q, t⟩
      · rw [hm] at h; simp at h
      · have hq : q ∈ tnum_widths RIBBI_ttFonts := by rw [hm]; exact List.mem_cons_self q t
        have hlen := m2 q hq
        have hne := tnum_widths_nonempty RIBBI_ttFonts q hq
        rw [hb] at hlen
        have : q.2.length ≥ 1 := List.length_pos.mpr hne
        omega
    · refine ⟨p.1, p.2, hp, ?_, tnumErase_keys _ _, ?_⟩
      · intro q hq
        have := m2 q hq
        omega
      · unfold com_google_fonts_check_family_tnum_horizontal_metrics
        rw [if_pos h, ha]

/-- C3 witness fonts: two tnum widths, width 5 carried by two glyphs. -/
def tnumWitnessFont : TTFont :=
  { fileName := "Fam-Regular.ttf", fullName := "Fam Regular", os2 := none,
    hhea := none, head := none,
    glyphSet := [⟨"one.tnum", 5, none⟩, ⟨"two.tnum", 5, none⟩, ⟨"three.tnum", 6, none⟩],
    bbYMin := 0, bbYMax := 0, cmapCodepoints := [] }

theorem C3_tnum_horizontal_metrics_witness :
    ∃ w glyphs,
      (w, glyphs) ∈ tnum_widths [tnumWitnessFont] ∧
      (∀ p ∈ tnum_widths [tnumWitnessFont], p.2.length ≤ glyphs.length) ∧
      (tnumErase (tnum_widths [tnumWitnessFont]) w).map Prod.fst =
        ((tnum_widths [tnumWitnessFont]).map Prod.fst).erase w ∧
      com_google_fonts_check_family_tnum_horizontal_metrics [tnumWitnessFont] =
        ⟨[(FAIL, msg "inconsistent-widths"
            (tnumFailText w (tnumErase (tnum_widths [tnumWitnessFont]) w)))], none⟩ := by
  exact (C3_tnum_horizontal_metrics [tnumWitnessFont]).2 (by decide)
theorem amLoopEmits_det (config : Config) (alignments : List (String × ℚ)) :
    ∀ (acc : List String) (gs : OutlinesDict) (out1 out2 : List Outcome),
      AMLoopEmits config alignments acc gs out1 →
      AMLoopEmits config alignments acc gs out2 → out1 = out2 := by
  intro acc gs out1 out2 h1
  induction h1 generalizing out2 with
  | nilWarn acc hne =>
    intro h2
    cases h2 with
    | nilWarn => rfl
    | nilPass _ h => exact absurd h hne
  | nilPass acc he =>
    intro h2
    cases h2 with
    | nilWarn _ h => exact absurd he h
    | nilPass => rfl
  | cutoff acc g rest hgt =>
    intro h2
    cases h2 with
    | cutoff => rfl
    | step _ _ _ _ hle _ => omega
  | step acc g rest out hle hrec ih =>
    intro h2
    cases h2 with
    | cutoff _ _ _ hgt => omega
    | step _ _ _ _ hle2 hrec2 => exact ih _ hrec2

theorem amGo_sound (config : Config) (alignments : List (String × ℚ)) :
    ∀ (gs : OutlinesDict) (acc : List String),
      AMLoopEmits config alignments acc gs (amGo config alignments acc gs) := by
  intro gs
  induction gs with
  | nil =>
    intro acc
    by_cases h : acc = []
    · rw [amGo, if_neg (by simp [h])]
      exact AMLoopEmits.nilPass acc h
    · rw [amGo, if_pos h]
      exact AMLoopEmits.nilWarn acc h
  | cons g rest ih =>
    intro acc
    by_cases h : (acc ++ amWarnings alignments g).length > FALSE_POSITIVE_CUTOFF
    · rw [amGo, if_pos h]
      exact AMLoopEmits.cutoff acc g rest h
    · rw [amGo, if_neg h]
      exact AMLoopEmits.step acc g rest _ (by omega) (ih _)

theorem amEmits_det (ttFont : TTFont) (od : OutlinesDict) (config : Config) :
    ∀ r1 r2 : CheckRun,
      AMEmits ttFont od config r1 → AMEmits ttFont od config r2 → r1 = r2 := by
  intro r1 r2 h1 h2
  cases h1 with
  | noOS2 h =>
    cases h2 with
    | noOS2 _ => rfl
    | run o2 out2 ho2 _ => rw [h] at ho2; exact absurd ho2 (by simp)
  | run o1 out1 ho1 hl1 =>
    cases h2 with
    | noOS2 h => rw [h] at ho1; exact absurd ho1 (by simp)
    | run o2 out2 ho2 hl2 =>
      rw [ho1] at ho2
      injection ho2 with ho2
      subst ho2
      rw [amLoopEmits_det config (amAlignments o1) [] od out1 out2 hl1 hl2]

theorem amEmits_sound (ttFont : TTFont) (od : OutlinesDict) (config : Config) :
    AMEmits ttFont od config (check_outline_alignment_miss ttFont od config) := by
  unfold check_outline_alignment_miss
  rcases h : ttFont.os2 with _ | os2_table
  · exact AMEmits.noOS2 h
  · exact AMEmits.run os2_table _ h (amGo_sound config (amAlignments os2_table) od [])

theorem tnumEmits_det (fonts : List TTFont) :
    ∀ r1 r2 : CheckRun, TnumEmits fonts r1 → TnumEmits fonts r2 → r1 = r2 := by
  intro r1 r2 h1 h2
  cases h1 with
  | inconsistent w1 hgt1 hmc1 =>
    cases h2 with
    | inconsistent w2 hgt2 hmc2 => rw [hmc1] at hmc2; injection hmc2 with h; rw [h]
    | keyError hgt2 hmc2 => rw [hmc1] at hmc2; exact absurd hmc2 (by simp)
    | consistent hle => omega
  | keyError hgt1 hmc1 =>
    cases h2 with
    | inconsistent w2 hgt2 hmc2 => rw [hmc1] at hmc2; exact absurd hmc2 (by simp)
    | keyError _ _ => rfl
    | consistent hle => omega
  | consistent hle =>
    cases h2 with
    | inconsistent w2 hgt2 hmc2 => omega
    | keyError hgt2 hmc2 => omega
    | consistent _ => rfl

theorem tnumEmits_sound (fonts : List TTFont) :
    TnumEmits fonts (com_google_fonts_check_family_tnum_horizontal_metrics fonts) := by
  unfold com_google_fonts_check_family_tnum_horizontal_metrics
  by_cases h : (tnum_widths fonts).length > 1
  · rw [if_pos h]
    rcases hmc : (tnumMostCommon 0 none (tnum_widths fonts)).2 with _ | w
    · exact TnumEmits.keyError h hmc
    · exact TnumEmits.inconsistent w h hmc
  · rw [if_neg h]
    exact TnumEmits.consistent (by omega)

/-- C7: the check bodies are deterministic: the emission relations of the
two cited bodies (the tnum horizontal-metrics check and the outline
alignment-miss check with its early-cutoff loop) are functional — two runs
on the same resolved inputs emit the identical sequence — and the
functional embeddings realize those relations. -/
theorem C7_check_bodies_deterministic :
    (∀ (fonts : List TTFont) (r1 r2 : CheckRun),
      TnumEmits fonts r1 → TnumEmits fonts r2 → r1 = r2) ∧
    (∀ (ttFont : TTFont) (od : OutlinesDict) (config : Config) (r1 r2 : CheckRun),
      AMEmits ttFont od config r1 → AMEmits ttFont od config r2 → r1 = r2) ∧
    (∀ fonts : List TTFont,
      TnumEmits fonts (com_google_fonts_check_family_tnum_horizontal_metrics fonts)) ∧
    (∀ (ttFont : TTFont) (od : OutlinesDict) (config : Config),
      AMEmits ttFont od config (check_outline_alignment_miss ttFont od config)) :=
  ⟨tnumEmits_det, amEmits_det, tnumEmits_sound, amEmits_sound⟩

/-- C7 witness: determinism applied on a concrete input identifies the
functional run with a derivation built from the constructors. -/
theorem C7_check_bodies_deterministic_witness :
    com_google_fonts_check_family_tnum_horizontal_metrics [] =
      ⟨[(PASS, rawMsg "OK")], none⟩ := by
  exact C7_check_bodies_deterministic.1 [] _ _
    (C7_check_bodies_deterministic.2.2.1 [])
    (TnumEmits.consistent (by decide))
def emptyConfig : Config := {}

theorem amGo_cutoff (config : Config) (alignments : List (String × ℚ)) :
    ∀ (gs : OutlinesDict) (acc : List String), amHits alignments acc gs = true →
      amGo config alignments acc gs = [(PASS, rawMsg amCutoffText)] := by
  intro gs
  induction gs with
  | nil => intro acc h; simp [amHits] at h
  | cons g rest ih =>
    intro acc h
    rw [amGo]
    by_cases hc : (acc ++ amWarnings alignments g).length > FALSE_POSITIVE_CUTOFF
    · rw [if_pos hc]
    · rw [if_neg hc]
      apply ih
      rw [amHits, if_neg hc] at h
      exact h

theorem amGo_stop (config : Config) (alignments : List (String × ℚ)) :
    ∀ (p : OutlinesDict) (acc : List String), amHits alignments acc p = true →
      ∀ rest : OutlinesDict,
        amGo config alignments acc (p ++ rest) = amGo config alignments acc p := by
  intro p
  induction p with
  | nil => intro acc h; simp [amHits] at h
  | cons g t ih =>
    intro acc h rest
    rw [List.cons_append, amGo, amGo]
    by_cases hc : (acc ++ amWarnings alignments g).length > FALSE_POSITIVE_CUTOFF
    · rw [if_pos hc, if_pos hc]
    · rw [if_neg hc, if_neg hc]
      rw [amHits, if_neg hc] at h
      exact ih _ h rest

theorem ssGo_cutoff (config : Config) :
    ∀ (gs : OutlinesDict) (acc : List String), ssHits acc gs = true →
      ssGo config acc gs = [(PASS, rawMsg ssCutoffText)] := by
  intro gs
  induction gs with
  | nil => intro acc h; simp [ssHits] at h
  | cons g rest ih =>
    intro acc h
    rw [ssGo]
    by_cases hc : (acc ++ ssWarnings g).length > FALSE_POSITIVE_CUTOFF
    · rw [if_pos hc]
    · rw [if_neg hc]
      apply ih
      rw [ssHits, if_neg hc] at h
      exact h

theorem ssGo_stop (config : Config) :
    ∀ (p : OutlinesDict) (acc : List String), ssHits acc p = true →
      ∀ rest : OutlinesDict, ssGo config acc (p ++ rest) = ssGo config acc p := by
  intro p
  induction p with
  | nil => intro acc h; simp [ssHits] at h
  | cons g t ih =>
    intro acc h rest
    rw [List.cons_append, ssGo, ssGo]
    by_cases hc : (acc ++ ssWarnings g).length > FALSE_POSITIVE_CUTOFF
    · rw [if_pos hc, if_pos hc]
    · rw [if_neg hc, if_neg hc]
      rw [ssHits, if_neg hc] at h
      exact ih _ h rest

theorem cvGo_cutoff (config : Config) :
    ∀ (gs : OutlinesDict) (acc : List String), cvHits acc gs = true →
      cvGo config acc gs = [(PASS, rawMsg cvCutoffText)] := by
  intro gs
  induction gs with
  | nil => intro acc h; simp [cvHits] at h
  | cons g rest ih =>
    intro acc h
    rw [cvGo]
    by_cases hc : (acc ++ cvWarnings g).length > FALSE_POSITIVE_CUTOFF
    · rw [if_pos hc]
    · rw [if_neg hc]
      apply ih
      rw [cvHits, if_neg hc] at h
      exact h

theorem cvGo_stop (config : Config) :
    ∀ (p : OutlinesDict) (acc : List String), cvHits acc p = true →
      ∀ rest : OutlinesDict, cvGo config acc (p ++ rest) = cvGo config acc p := by
  intro p
  induction p with
  | nil => intro acc h; simp [cvHits] at h
  | cons g t ih =>
    intro acc h rest
    rw [List.cons_append, cvGo, cvGo]
    by_cases hc : (acc ++ cvWarnings g).length > FALSE_POSITIVE_CUTOFF
    · rw [if_pos hc, if_pos hc]
    · rw [if_neg hc, if_neg hc]
      rw [cvHits, if_neg hc] at h
      exact ih _ h rest

/-- C4 (amended): whenever the accumulated warning count of
`check_outline_alignment_miss`, `check_outline_short_segments` or
`check_outline_colinear_vectors` exceeds FALSE_POSITIVE_CUTOFF (100) after
some glyph, the glyph loop emits exactly the one summary PASS and returns
early: no further glyph changes the output.  The loop emits no WARN, but the
full emission of `check_outline_alignment_miss` is the summary PASS preceded
by the pre-loop `skip-cap-x-height-alignment` WARN when the OS/2 table is
older than version 2. -/
theorem C4_cutoff_single_summary_pass :
    (∀ (ttFont : TTFont) (od : OutlinesDict) (config : Config) (os2_table : OS2Table),
      ttFont.os2 = some os2_table →
      amHits (amAlignments os2_table) [] od = true →
      (check_outline_alignment_miss ttFont od config).outcomes =
        amPre os2_table ++ [(PASS, rawMsg amCutoffText)] ∧
      ∀ rest : OutlinesDict,
        check_outline_alignment_miss ttFont (od ++ rest) config =
          check_outline_alignment_miss ttFont od config) ∧
    (∀ (ttFont : TTFont) (od : OutlinesDict) (config : Config),
      ssHits [] od = true →
      check_outline_short_segments ttFont od config = [(PASS, rawMsg ssCutoffText)] ∧
      ∀ rest : OutlinesDict,
        check_outline_short_segments ttFont (od ++ rest) config =
          check_outline_short_segments ttFont od config) ∧
    (∀ (ttFont : TTFont) (od : OutlinesDict) (config : Config),
      cvHits [] od = true →
      check_outline_colinear_vectors ttFont od config = [(PASS, rawMsg cvCutoffText)] ∧
      ∀ rest : OutlinesDict,
        check_outline_colinear_vectors ttFont (od ++ rest) config =
          check_outline_colinear_vectors ttFont od config) := by
  refine ⟨?_, ?_, ?_⟩
  · intro ttFont od config os2_table hos2 hhits
    unfold check_outline_alignment_miss
    rw [hos2]
    constructor
    · dsimp only
      rw [amGo_cutoff config (amAlignments os2_table) od [] hhits]
    · intro rest
      dsimp only
      rw [amGo_stop config (amAlignments os2_table) od [] hhits rest]
  · intro ttFont od config hhits
    unfold check_outline_short_segments
    exact ⟨ssGo_cutoff config od [] hhits, fun rest => ssGo_stop config od [] hhits rest⟩
  · intro ttFont od config hhits
    unfold check_outline_colinear_vectors
    exact ⟨cvGo_cutoff config od [] hhits, fun rest => cvGo_stop config od [] hhits rest⟩

/-- A zero-length line segment. -/
def ssWitSeg : Segment := ⟨2, 0, (0, 0), (0, 0), 0, 0, "seg"⟩

def ssWitOD : OutlinesDict :=
  [(("g", "g"), [⟨[], List.replicate 101 ssWitSeg, 0, none, 0⟩])]

def blankFont : TTFont :=
  { fileName := "x", fullName := "x", os2 := none, hhea := none, head := none,
    glyphSet := [], bbYMin := 0, bbYMax := 0, cmapCodepoints := [] }

/-- C4 witness. -/
theorem C4_cutoff_single_summary_pass_witness :
    check_outline_short_segments blankFont ssWitOD emptyConfig =
      [(PASS, rawMsg ssCutoffText)] := by
  exact (C4_cutoff_single_summary_pass.2.1 blankFont ssWitOD emptyConfig (by decide)).1

/-- An OS/2 table of version 1 (so the pre-loop WARN fires). -/
def amCexOS2 : OS2Table := ⟨1000, 200, 800, -200, 0, 1, 0, 0⟩

def amCexFont : TTFont :=
  { fileName := "x", fullName := "x", os2 := some amCexOS2, hhea := none,
    head := none, glyphSet := [], bbYMin := 0, bbYMax := 0, cmapCodepoints := [] }

/-- One on-curve node sitting 1 unit above the baseline. -/
def amCexNode : ONode := ⟨0, 1, "curve"⟩

def amCexOD : OutlinesDict :=
  [(("a", "a"), [⟨List.replicate 101 amCexNode, [], 0, none, 0⟩])]

unseal Rat.sub in
/-- C4 counterexample: on a font whose OS/2 table is older than version 2,
`check_outline_alignment_miss` reaches the cutoff but its emission is a WARN
followed by the summary PASS, refuting the claim that the check emits no
WARN when the cutoff fires. -/
theorem C4_cutoff_counterexample :
    amHits (amAlignments amCexOS2) [] amCexOD = true ∧
    ((check_outline_alignment_miss amCexFont amCexOD emptyConfig).outcomes).map
        Prod.fst = [WARN, PASS] := by
  constructor
  · decide
  · decide
theorem vmStep_fold (ttFonts : List TTFont) :
    ∀ (outs : List Outcome) (miss : Bool) (dicts : VMDicts),
      (ttFonts.foldl vmStep (outs, miss, dicts)).1 =
        outs ++ ttFonts.filterMap vmMissingFail ∧
      (ttFonts.foldl vmStep (outs, miss, dicts)).2.1 =
        (miss || ttFonts.any (fun f => (vmMissingFail f).isSome)) := by
  induction ttFonts with
  | nil => intro outs miss dicts; simp
  | cons f t ih =>
    intro outs miss dicts
    simp only [List.foldl_cons, List.filterMap_cons, List.any_cons]
    rcases hmf : vmMissingFail f with _ | out
    · have step : vmStep (outs, miss, dicts) f =
          match f.os2, f.hhea with
          | some o, some h => (outs, miss, vmRecord dicts f o h)
          | _, _ => (outs, miss, dicts) := by
        unfold vmStep
        rw [hmf]
      rcases ho : f.os2 with _ | o
      · unfold vmMissingFail at hmf
        rw [ho] at hmf
        simp at hmf
      · rcases hh : f.hhea with _ | h
        · unfold vmMissingFail at hmf
          rw [ho, hh] at hmf
          simp at hmf
        · rw [step, ho, hh]
          obtain ⟨i1, i2⟩ := ih outs miss (vmRecord dicts f o h)
          simp [hmf, i1, i2]
    · have step : vmStep (outs, miss, dicts) f = (outs ++ [out], true, dicts) := by
        unfold vmStep
        rw [hmf]
      rw [step]
      obtain ⟨i1, i2⟩ := ih (outs ++ [out]) true dicts
      simp [hmf, i1, i2]

/-- C2 (amended): a font lacking a required metrics table makes each metrics
check FAIL on it and skip every read of its metric fields:
`check_family_win_ascent_and_descent` emits exactly one FAIL with code
lacks-OS/2 and returns; `check_family_vertical_metrics` emits, in font order,
exactly one FAIL with code lacks-OS/2 or lacks-hhea per missing-table font
and no family comparison outcome at all; `check_linegaps` emits one FAIL per
missing table with the generic code lacks-table, naming the missing table in
the message text rather than in the code. -/
theorem C2_missing_table_fails :
    (∀ (ttFont : TTFont) (vm : VMetricsDict), ttFont.os2 = none →
      check_family_win_ascent_and_descent ttFont vm =
        [(FAIL, msg "lacks-OS/2" "Font file lacks OS/2 table")]) ∧
    (∀ ttFonts : List TTFont, (∃ f ∈ ttFonts, f.os2 = none ∨ f.hhea = none) →
      check_family_vertical_metrics ttFonts = ttFonts.filterMap vmMissingFail ∧
      ∀ f ∈ ttFonts, f.os2 = none →
        (FAIL, msg "lacks-OS/2" (basename f.fileName ++ " lacks an OS/2 table.")) ∈
          check_family_vertical_metrics ttFonts) ∧
    (∀ ttFont : TTFont,
      (ttFont.os2 = none → ttFont.hhea = none →
        check_linegaps ttFont =
          [(FAIL, msg "lacks-table" "Font lacks OS/2 table."),
           (FAIL, msg "lacks-table" "Font lacks hhea table.")]) ∧
      (∀ h : HheaTable, ttFont.os2 = none → ttFont.hhea = some h →
        check_linegaps ttFont = [(FAIL, msg "lacks-table" "Font lacks OS/2 table.")]) ∧
      (∀ o : OS2Table, ttFont.os2 = some o → ttFont.hhea = none →
        check_linegaps ttFont = [(FAIL, msg "lacks-table" "Font lacks hhea table.")])) := by
  refine ⟨?_, ?_, ?_⟩
  · intro ttFont vm h
    unfold check_family_win_ascent_and_descent
    rw [h]
  · intro ttFonts hex
    have hfold := vmStep_fold ttFonts [] false emptyVMDicts
    have hmiss : ttFonts.any (fun f => (vmMissingFail f).isSome) = true := by
      obtain ⟨f, hf, hcase⟩ := hex
      apply List.any_eq_true.mpr
      refine ⟨f, hf, ?_⟩
      unfold vmMissingFail
      rcases hcase with h | h
      · rw [h]; simp
      · rcases ho : f.os2 with _ | o
        · simp
        · rw [h]; simp
    have hout : check_family_vertical_metrics ttFonts = ttFonts.filterMap vmMissingFail := by
      unfold check_family_vertical_metrics
      rcases hst : ttFonts.foldl vmStep ([], false, emptyVMDicts) with ⟨outs, miss, dicts⟩
      rw [hst] at hfold
      simp only at hfold
      have : miss = true := by rw [hfold.2, hmiss]; simp
      rw [this]
      simp only [if_true]
      rw [hfold.1]
      simp
    refine ⟨hout, ?_⟩
    intro f hf ho
    rw [hout]
    apply List.mem_filterMap.mpr
    refine ⟨f, hf, ?_⟩
    unfold vmMissingFail
    rw [ho]
    simp
  · intro ttFont
    refine ⟨?_, ?_, ?_⟩
    · intro h1 h2
      unfold check_linegaps
      rw [h1, h2]
    · intro h h1 h2
      unfold check_linegaps
      rw [h1, h2]
    · intro o h1 h2
      unfold check_linegaps
      rw [h1, h2]

/-- C2 witness font: OS/2 table absent. -/
def noOS2Font : TTFont :=
  { fileName := "NoOS2.ttf", fullName := "NoOS2", os2 := none,
    hhea := some ⟨800, -200, 0⟩, head := some ⟨1000⟩, glyphSet := [],
    bbYMin := 0, bbYMax := 0, cmapCodepoints := [] }

/-- C2 witness. -/
theorem C2_missing_table_fails_witness :
    check_family_win_ascent_and_descent noOS2Font { ymin := 0, ymax := 0 } =
      [(FAIL, msg "lacks-OS/2" "Font file lacks OS/2 table")] := by
  exact C2_missing_table_fails.1 noOS2Font { ymin := 0, ymax := 0 } (by decide)

/-- C2 counterexample: for `check_linegaps` on a font lacking only the OS/2
table, the FAIL message code is the generic "lacks-table": the code does not
identify which table is missing (the claim expected a code in the style of
lacks-OS/2). -/
theorem C2_missing_table_counterexample :
    (check_linegaps noOS2Font).map (fun o => o.2.code) = [some "lacks-table"] ∧
    (some "lacks-table" : Option String) ≠ some "lacks-OS/2" := by
  constructor
  · decide
  · decide
theorem filterMap_some_map_length {α β : Type} [DecidableEq α] (f : α → β) :
    ∀ l : List (Option α), l.any (fun b => b = none) = false →
      (l.filterMap (fun b => b.map f)).length = l.length := by
  intro l
  induction l with
  | nil => intro h; simp
  | cons b t ih =>
    intro h
    simp only [List.any_cons, Bool.or_eq_false_iff] at h
    rcases b with _ | x
    · simp at h
    · simp [List.filterMap_cons, ih h.2]

/-- C10 (amended): in `check_caps_vertically_centered`, whenever the
averaging step is reached the high-point and low-point lists have exactly 12
entries (the SKIP fires when one of the 12 sample glyphs is missing), so the
averaging divisions never divide by zero; the body emits exactly one outcome
(SKIP, WARN or PASS) on every run it completes, while a sample glyph with no
contours (or a missing head/hhea table) raises before any emission. -/
theorem C10_caps_vertically_centered_single_outcome (ttFont : MutTTFont) :
    (SOME_UPPERCASE_GLYPHS.any (fun g => ¬ hasGlyph ttFont.font.glyphSet g) = true →
      check_caps_vertically_centered ttFont =
        ⟨[(SKIP, msg "lacks-ascii"
            ("The implementation of this check relies on a few samples of uppercase" ++
             " latin characters that are not available in this font."))], none⟩) ∧
    (∀ (head_table : HeadTable) (hhea_table : HheaTable),
      SOME_UPPERCASE_GLYPHS.any (fun g => ¬ hasGlyph ttFont.font.glyphSet g) = false →
      (SOME_UPPERCASE_GLYPHS.map
        (fun g => (glyphLookup ttFont.font.glyphSet g).bind (fun gl => gl.bounds))).any
          (fun b => b = none) = false →
      ttFont.font.head = some head_table →
      ttFont.font.hhea = some hhea_table →
      ((SOME_UPPERCASE_GLYPHS.map
          (fun g => (glyphLookup ttFont.font.glyphSet g).bind (fun gl => gl.bounds))).filterMap
            (fun b => b.map (fun q => q.2.2.2))).length = 12 ∧
      ((SOME_UPPERCASE_GLYPHS.map
          (fun g => (glyphLookup ttFont.font.glyphSet g).bind (fun gl => gl.bounds))).filterMap
            (fun b => b.map (fun q => q.2.1))).length = 12 ∧
      (check_caps_vertically_centered ttFont =
          ⟨[(WARN, msg "vertical-metrics-not-centered"
              "Uppercase glyphs are not vertically centered in the em box.")], none⟩ ∨
        check_caps_vertically_centered ttFont =
          ⟨[(PASS, rawMsg "Uppercase glyphs are vertically centered in the em box.")],
            none⟩)) := by
  constructor
  · intro h
    unfold check_caps_vertically_centered deepcopy
    simp [h]
    intro hall
    exfalso
    simp only [List.any_eq_true, decide_eq_true_eq] at h
    obtain ⟨x, hx, hnx⟩ := h
    exact hnx (hall x hx)
  · intro head_table hhea_table hglyphs hbounds hhead hhhea
    have l1 := filterMap_some_map_length (fun q : Int × Int × Int × Int => q.2.2.2)
      (SOME_UPPERCASE_GLYPHS.map
        (fun g => (glyphLookup ttFont.font.glyphSet g).bind (fun gl => gl.bounds))) hbounds
    have l2 := filterMap_some_map_length (fun q : Int × Int × Int × Int => q.2.1)
      (SOME_UPPERCASE_GLYPHS.map
        (fun g => (glyphLookup ttFont.font.glyphSet g).bind (fun gl => gl.bounds))) hbounds
    refine ⟨by rw [l1]; rfl, by rw [l2]; rfl, ?_⟩
    unfold check_caps_vertically_centered deepcopy
    simp only [hglyphs, hbounds, hhead, hhhea, Bool.false_eq_true, if_false]
    split
    · exact Or.inl rfl
    · exact Or.inr rfl

/-- C10 witness: a font with none of the sample glyphs SKIPs with one
outcome. -/
theorem C10_caps_vertically_centered_single_outcome_witness :
    check_caps_vertically_centered
        ⟨{ fileName := "E.ttf", fullName := "E", os2 := none, hhea := none,
           head := none, glyphSet := [], bbYMin := 0, bbYMax := 0,
           cmapCodepoints := [] }, 0⟩ =
      ⟨[(SKIP, msg "lacks-ascii"
          ("The implementation of this check relies on a few samples of uppercase" ++
           " latin characters that are not available in this font."))], none⟩ := by
  exact (C10_caps_vertically_centered_single_outcome _).1 (by decide)

/-- A font holding all 12 sample glyphs where /A has no contours, so its
`BoundsPen` bounds are Python None. -/
def capsCexFont : MutTTFont :=
  ⟨{ fileName := "Caps.ttf", fullName := "Caps", os2 := none,
     hhea := some ⟨800, -200, 0⟩, head := some ⟨1000⟩,
     glyphSet := ⟨"A", 0, none⟩ ::
       (["B", "C", "D", "E", "H", "I", "M", "O", "S", "T", "X"].map
         (fun n => ⟨n, 0, some (0, 0, 500, 700)⟩)),
     bbYMin := 0, bbYMax := 0, cmapCodepoints := [] }, 0⟩

/-- C10 counterexample: all 12 sample glyphs are present but /A is empty, so
unpacking `pen.bounds` raises and the body emits zero outcomes, not exactly
one. -/
theorem C10_caps_vertically_centered_counterexample :
    (check_caps_vertically_centered capsCexFont).outcomes = [] ∧
    (check_caps_vertically_centered capsCexFont).err ≠ none := by
  constructor
  · decide
  · decide
/-! ### Unfolding lemmas for the fuelled traversal -/

theorem tree_zero (env : SubrEnv) (info : TravInfo) (program : List CSToken)
    (depth : Nat) : _traverse_subr_call_tree 0 env info program depth = none := by
  rw [_traverse_subr_call_tree]

theorem tree_deep {f : Nat} {env : SubrEnv} {info : TravInfo}
    {program : List CSToken} {depth : Nat} (hd : depth > 10) :
    _traverse_subr_call_tree (f + 1) env info program depth =
      some (.ok (if depth > info.max_depth then { info with max_depth := depth }
                 else info)) := by
  rw [_traverse_subr_call_tree]
  dsimp only
  rw [if_pos hd]

/-- The updates `_traverse_subr_call_tree` performs on `info` before entering
the while loop at depth <= 10. -/
def travInfoUpdate (info : TravInfo) (program : List CSToken) (depth : Nat) :
    TravInfo :=
  let info := if depth > info.max_depth then { info with max_depth := depth } else info
  let info :=
    if sawEndcharSeacProgram program then { info with saw_endchar_seac := true }
    else info
  if program.contains (.op "ignore") then { info with saw_dotsection := true } else info

theorem travInfoUpdate_max (info : TravInfo) (program : List CSToken) (depth : Nat) :
    (travInfoUpdate info program depth).max_depth =
      if depth > info.max_depth then depth else info.max_depth := by
  unfold travInfoUpdate
  by_cases h1 : depth > info.max_depth
  · rw [if_pos h1, if_pos h1]
    split <;> split <;> rfl
  · rw [if_neg h1, if_neg h1]
    split <;> split <;> rfl

theorem tree_go {f : Nat} {env : SubrEnv} {info : TravInfo}
    {program : List CSToken} {depth : Nat} (hd : ¬ depth > 10) :
    _traverse_subr_call_tree (f + 1) env info program depth =
      subr_loop f env (travInfoUpdate info program depth) program depth := by
  rw [_traverse_subr_call_tree]
  dsimp only
  rw [if_neg hd]
  rfl

theorem subr_loop_pop_none {f : Nat} {env : SubrEnv} {info : TravInfo}
    {program : List CSToken} {depth : Nat} (h : listPop program = none) :
    subr_loop f env info program depth = some (.ok info) := by
  rw [subr_loop]
  split
  · rfl
  · next x rest heq =>
    rw [h] at heq
    cases heq

theorem subr_loop_other {f : Nat} {env : SubrEnv} {info : TravInfo}
    {program rest : List CSToken} {depth : Nat} {x : CSToken}
    (h : listPop program = some (x, rest))
    (hx1 : x ≠ CSToken.op "callgsubr") (hx2 : x ≠ CSToken.op "callsubr") :
    subr_loop f env info program depth = subr_loop f env info rest depth := by
  rw [subr_loop]
  split
  · next heq => rw [h] at heq; cases heq
  · next x' rest' heq =>
    rw [h] at heq
    injection heq with heq
    injection heq with heqx heqr
    subst heqx
    subst heqr
    rw [if_neg hx1, if_neg hx2]

theorem subr_loop_gsubr_err1 {f : Nat} {env : SubrEnv} {info : TravInfo}
    {program rest : List CSToken} {depth : Nat}
    (h : listPop program = some (CSToken.op "callgsubr", rest))
    (h2 : listPop rest = none) :
    subr_loop f env info program depth =
      some (.error "IndexError: pop from empty list") := by
  rw [subr_loop]
  split
  · next heq => rw [h] at heq; cases heq
  · next x' rest' heq =>
    rw [h] at heq
    injection heq with heq
    injection heq with heqx heqr
    subst heqx
    subst heqr
    rw [if_pos rfl]
    split
    · rfl
    · next ytok rest2 heq2 => rw [h2] at heq2; cases heq2

theorem subr_loop_gsubr_err2 {f : Nat} {env : SubrEnv} {info : TravInfo}
    {program rest rest2 : List CSToken} {depth : Nat} {ytok : CSToken}
    (h : listPop program = some (CSToken.op "callgsubr", rest))
    (h2 : listPop rest = some (ytok, rest2))
    (h3 : tokInt ytok = none) :
    subr_loop f env info program depth =
      some (.error "ValueError: invalid literal for int") := by
  rw [subr_loop]
  split
  · next heq => rw [h] at heq; cases heq
  · next x' rest' heq =>
    rw [h] at heq
    injection heq with heq
    injection heq with heqx heqr
    subst heqx
    subst heqr
    rw [if_pos rfl]
    split
    · next heq2 => rw [h2] at heq2; cases heq2
    · next ytok' rest2' heq2 =>
      rw [h2] at heq2
      injection heq2 with heq2
      injection heq2 with heqy heqr2
      subst heqy
      subst heqr2
      rw [h3]

theorem subr_loop_gsubr_err3 {f : Nat} {env : SubrEnv} {info : TravInfo}
    {program rest rest2 : List CSToken} {depth : Nat} {ytok : CSToken} {yv : Int}
    (h : listPop program = some (CSToken.op "callgsubr", rest))
    (h2 : listPop rest = some (ytok, rest2))
    (h3 : tokInt ytok = some yv)
    (h4 : pyGet env.global_subrs (yv + env.gsubr_bias) = none) :
    subr_loop f env info program depth =
      some (.error "IndexError: list index out of range") := by
  rw [subr_loop]
  split
  · next heq => rw [h] at heq; cases heq
  · next x' rest' heq =>
    rw [h] at heq
    injection heq with heq
    injection heq with heqx heqr
    subst heqx
    subst heqr
    rw [if_pos rfl]
    split
    · next heq2 => rw [h2] at heq2; cases heq2
    · next ytok' rest2' heq2 =>
      rw [h2] at heq2
      injection heq2 with heq2
      injection heq2 with heqy heqr2
      subst heqy
      subst heqr2
      rw [h3]
      dsimp only
      rw [h4]

theorem subr_loop_gsubr {f : Nat} {env : SubrEnv} {info : TravInfo}
    {program rest rest2 : List CSToken} {depth : Nat} {ytok : CSToken} {yv : Int}
    {sub_program : List CSToken}
    (h : listPop program = some (CSToken.op "callgsubr", rest))
    (h2 : listPop rest = some (ytok, rest2))
    (h3 : tokInt ytok = some yv)
    (h4 : pyGet env.global_subrs (yv + env.gsubr_bias) = some sub_program) :
    subr_loop f env info program depth =
      (match _traverse_subr_call_tree f env info sub_program (depth + 1) with
        | none => none
        | some (.error e) => some (.error e)
        | some (.ok info2) => subr_loop f env info2 rest2 depth) := by
  rw [subr_loop]
  split
  · next heq => rw [h] at heq; cases heq
  · next x' rest' heq =>
    rw [h] at heq
    injection heq with heq
    injection heq with heqx heqr
    subst heqx
    subst heqr
    rw [if_pos rfl]
    split
    · next heq2 => rw [h2] at heq2; cases heq2
    · next ytok' rest2' heq2 =>
      rw [h2] at heq2
      injection heq2 with heq2
      injection heq2 with heqy heqr2
      subst heqy
      subst heqr2
      rw [h3]
      dsimp only
      rw [h4]
theorem subr_loop_subr_noSubrs {f : Nat} {env : SubrEnv} {info : TravInfo}
    {program rest : List CSToken} {depth : Nat}
    (h : listPop program = some (CSToken.op "callsubr", rest))
    (hs : env.subrs = none) :
    subr_loop f env info program depth = some (.error "TypeError: NoneType") := by
  rw [subr_loop]
  split
  · next heq => rw [h] at heq; cases heq
  · next x' rest' heq =>
    rw [h] at heq
    injection heq with heq
    injection heq with heqx heqr
    subst heqx
    subst heqr
    rw [if_neg (by simp), if_pos rfl]
    rw [hs]
    rcases hb2 : env.subr_bias with _ | sbv <;> rfl

theorem subr_loop_subr_noBias {f : Nat} {env : SubrEnv} {info : TravInfo}
    {program rest : List CSToken} {depth : Nat}
    (h : listPop program = some (CSToken.op "callsubr", rest))
    (hb : env.subr_bias = none) :
    subr_loop f env info program depth = some (.error "TypeError: NoneType") := by
  rw [subr_loop]
  split
  · next heq => rw [h] at heq; cases heq
  · next x' rest' heq =>
    rw [h] at heq
    injection heq with heq
    injection heq with heqx heqr
    subst heqx
    subst heqr
    rw [if_neg (by simp), if_pos rfl]
    rcases henv : env.subrs with _ | sl
    · rw [hb]
    · rw [hb]

theorem subr_loop_subr_err1 {f : Nat} {env : SubrEnv} {info : TravInfo}
    {program rest : List CSToken} {depth : Nat}
    {subrsList : List (List CSToken)} {sb : Int}
    (h : listPop program = some (CSToken.op "callsubr", rest))
    (hs : env.subrs = some subrsList) (hb : env.subr_bias = some sb)
    (h2 : listPop rest = none) :
    subr_loop f env info program depth =
      some (.error "IndexError: pop from empty list") := by
  rw [subr_loop]
  split
  · next heq => rw [h] at heq; cases heq
  · next x' rest' heq =>
    rw [h] at heq
    injection heq with heq
    injection heq with heqx heqr
    subst heqx
    subst heqr
    rw [if_neg (by simp), if_pos rfl]
    rw [hs, hb]
    dsimp only
    split
    · rfl
    · next ytok rest2 heq2 => rw [h2] at heq2; cases heq2

theorem subr_loop_subr_err2 {f : Nat} {env : SubrEnv} {info : TravInfo}
    {program rest rest2 : List CSToken} {depth : Nat} {ytok : CSToken}
    {subrsList : List (List CSToken)} {sb : Int}
    (h : listPop program = some (CSToken.op "callsubr", rest))
    (hs : env.subrs = some subrsList) (hb : env.subr_bias = some sb)
    (h2 : listPop rest = some (ytok, rest2))
    (h3 : tokInt ytok = none) :
    subr_loop f env info program depth =
      some (.error "ValueError: invalid literal for int") := by
  rw [subr_loop]
  split
  · next heq => rw [h] at heq; cases heq
  · next x' rest' heq =>
    rw [h] at heq
    injection heq with heq
    injection heq with heqx heqr
    subst heqx
    subst heqr
    rw [if_neg (by simp), if_pos rfl]
    rw [hs, hb]
    dsimp only
    split
    · next heq2 => rw [h2] at heq2; cases heq2
    · next ytok' rest2' heq2 =>
      rw [h2] at heq2
      injection heq2 with heq2
      injection heq2 with heqy heqr2
      subst heqy
      subst heqr2
      rw [h3]

theorem subr_loop_subr_err3 {f : Nat} {env : SubrEnv} {info : TravInfo}
    {program rest rest2 : List CSToken} {depth : Nat} {ytok : CSToken} {yv : Int}
    {subrsList : List (List CSToken)} {sb : Int}
    (h : listPop program = some (CSToken.op "callsubr", rest))
    (hs : env.subrs = some subrsList) (hb : env.subr_bias = some sb)
    (h2 : listPop rest = some (ytok, rest2))
    (h3 : tokInt ytok = some yv)
    (h4 : pyGet subrsList (yv + sb) = none) :
    subr_loop f env info program depth =
      some (.error "IndexError: list index out of range") := by
  rw [subr_loop]
  split
  · next heq => rw [h] at heq; cases heq
  · next x' rest' heq =>
    rw [h] at heq
    injection heq with heq
    injection heq with heqx heqr
    subst heqx
    subst heqr
    rw [if_neg (by simp), if_pos rfl]
    rw [hs, hb]
    dsimp only
    split
    · next heq2 => rw [h2] at heq2; cases heq2
    · next ytok' rest2' heq2 =>
      rw [h2] at heq2
      injection heq2 with heq2
      injection heq2 with heqy heqr2
      subst heqy
      subst heqr2
      rw [h3]
      dsimp only
      rw [h4]

theorem subr_loop_subr {f : Nat} {env : SubrEnv} {info : TravInfo}
    {program rest rest2 : List CSToken} {depth : Nat} {ytok : CSToken} {yv : Int}
    {subrsList : List (List CSToken)} {sb : Int} {sub_program : List CSToken}
    (h : listPop program = some (CSToken.op "callsubr", rest))
    (hs : env.subrs = some subrsList) (hb : env.subr_bias = some sb)
    (h2 : listPop rest = some (ytok, rest2))
    (h3 : tokInt ytok = some yv)
    (h4 : pyGet subrsList (yv + sb) = some sub_program) :
    subr_loop f env info program depth =
      (match _traverse_subr_call_tree f env info sub_program (depth + 1) with
        | none => none
        | some (.error e) => some (.error e)
        | some (.ok info2) => subr_loop f env info2 rest2 depth) := by
  rw [subr_loop]
  split
  · next heq => rw [h] at heq; cases heq
  · next x' rest' heq =>
    rw [h] at heq
    injection heq with heq
    injection heq with heqx heqr
    subst heqx
    subst heqr
    rw [if_neg (by simp), if_pos rfl]
    rw [hs, hb]
    dsimp only
    split
    · next heq2 => rw [h2] at heq2; cases heq2
    · next ytok' rest2' heq2 =>
      rw [h2] at heq2
      injection heq2 with heq2
      injection heq2 with heqy heqr2
      subst heqy
      subst heqr2
      rw [h3]
      dsimp only
      rw [h4]
/-- Stability and non-exhaustion of the fuelled traversal: once the fuel
exceeds `11 - depth` (the remaining call-stack budget the depth-10 guard can
consume), one more unit of fuel never changes the result and the fuel never
runs out.  This is the termination argument of the source: the recursion
returns once the depth exceeds 10, and each loop iteration pops the
program. -/
theorem trav_spec : ∀ fuel : Nat,
    (∀ (env : SubrEnv) (info : TravInfo) (program : List CSToken) (depth : Nat),
      11 - depth < fuel →
      _traverse_subr_call_tree fuel env info program depth =
        _traverse_subr_call_tree (fuel + 1) env info program depth ∧
      _traverse_subr_call_tree fuel env info program depth ≠ none) ∧
    (∀ (n : Nat) (env : SubrEnv) (info : TravInfo) (program : List CSToken) (depth : Nat),
      program.length ≤ n → depth ≤ 10 → 10 - depth < fuel →
      subr_loop fuel env info program depth =
        subr_loop (fuel + 1) env info program depth ∧
      subr_loop fuel env info program depth ≠ none) := by
  intro fuel
  induction fuel using Nat.strong_induction_on with
  | _ fuel IH =>
  have treePart : ∀ (env : SubrEnv) (info : TravInfo) (program : List CSToken)
      (depth : Nat), 11 - depth < fuel →
      _traverse_subr_call_tree fuel env info program depth =
        _traverse_subr_call_tree (fuel + 1) env info program depth ∧
      _traverse_subr_call_tree fuel env info program depth ≠ none := by
    intro env info program depth hf
    rcases fuel with _ | f
    · omega
    · by_cases hd : depth > 10
      · rw [tree_deep hd, tree_deep hd]
        exact ⟨rfl, by simp⟩
      · rw [tree_go hd, tree_go hd]
        exact (IH f (by omega)).2 program.length env (travInfoUpdate info program depth)
          program depth le_rfl (by omega) (by omega)
  refine ⟨treePart, ?_⟩
  intro n
  induction n with
  | zero =>
    intro env info program depth hlen hd hg
    have hp : program = [] := List.length_eq_zero.mp (by omega)
    subst hp
    rw [subr_loop_pop_none (show listPop [] = none from rfl),
      subr_loop_pop_none (show listPop [] = none from rfl)]
    exact ⟨rfl, by simp⟩
  | succ n ihn =>
    intro env info program depth hlen hd hg
    rcases hpop : listPop program with _ | ⟨x, rest⟩
    · rw [subr_loop_pop_none hpop, subr_loop_pop_none hpop]
      exact ⟨rfl, by simp⟩
    · have hrl := listPop_length hpop
      by_cases hx : x = CSToken.op "callgsubr"
      · subst hx
        rcases hpop2 : listPop rest with _ | ⟨ytok, rest2⟩
        · rw [subr_loop_gsubr_err1 hpop hpop2, subr_loop_gsubr_err1 hpop hpop2]
          exact ⟨rfl, by simp⟩
        · have hrl2 := listPop_length hpop2
          rcases htok : tokInt ytok with _ | yv
          · rw [subr_loop_gsubr_err2 hpop hpop2 htok,
              subr_loop_gsubr_err2 hpop hpop2 htok]
            exact ⟨rfl, by simp⟩
          · rcases hget : pyGet env.global_subrs (yv + env.gsubr_bias) with _ | sub
            · rw [subr_loop_gsubr_err3 hpop hpop2 htok hget,
                subr_loop_gsubr_err3 hpop hpop2 htok hget]
              exact ⟨rfl, by simp⟩
            · rw [subr_loop_gsubr hpop hpop2 htok hget,
                subr_loop_gsubr hpop hpop2 htok hget]
              obtain ⟨te, tn⟩ := treePart env info sub (depth + 1) (by omega)
              rw [← te]
              rcases htv : _traverse_subr_call_tree fuel env info sub (depth + 1)
                with _ | res
              · exact absurd htv tn
              · rcases res with e | info2
                · exact ⟨rfl, by simp⟩
                · exact ihn env info2 rest2 depth (by omega) hd hg
      · by_cases hx2 : x = CSToken.op "callsubr"
        · subst hx2
          rcases hsub : env.subrs with _ | subrsList
          · rw [subr_loop_subr_noSubrs hpop hsub, subr_loop_subr_noSubrs hpop hsub]
            exact ⟨rfl, by simp⟩
          · rcases hbias : env.subr_bias with _ | sb
            · rw [subr_loop_subr_noBias hpop hbias, subr_loop_subr_noBias hpop hbias]
              exact ⟨rfl, by simp⟩
            · rcases hpop2 : listPop rest with _ | ⟨ytok, rest2⟩
              · rw [subr_loop_subr_err1 hpop hsub hbias hpop2,
                  subr_loop_subr_err1 hpop hsub hbias hpop2]
                exact ⟨rfl, by simp⟩
              · have hrl2 := listPop_length hpop2
                rcases htok : tokInt ytok with _ | yv
                · rw [subr_loop_subr_err2 hpop hsub hbias hpop2 htok,
                    subr_loop_subr_err2 hpop hsub hbias hpop2 htok]
                  exact ⟨rfl, by simp⟩
                · rcases hget : pyGet subrsList (yv + sb) with _ | sub
                  · rw [subr_loop_subr_err3 hpop hsub hbias hpop2 htok hget,
                      subr_loop_subr_err3 hpop hsub hbias hpop2 htok hget]
                    exact ⟨rfl, by simp⟩
                  · rw [subr_loop_subr hpop hsub hbias hpop2 htok hget,
                      subr_loop_subr hpop hsub hbias hpop2 htok hget]
                    obtain ⟨te, tn⟩ := treePart env info sub (depth + 1) (by omega)
                    rw [← te]
                    rcases htv : _traverse_subr_call_tree fuel env info sub (depth + 1)
                      with _ | res
                    · exact absurd htv tn
                    · rcases res with e | info2
                      · exact ⟨rfl, by simp⟩
                      · exact ihn env info2 rest2 depth (by omega) hd hg
        · rw [subr_loop_other hpop hx hx2, subr_loop_other hpop hx hx2]
          exact ihn env info rest depth (by omega) hd hg
/-- The depth guard bounds `max_depth`: a completed traversal entered at a
depth and running max below 11 never reports a max depth above 11. -/
theorem trav_bound : ∀ fuel : Nat,
    (∀ (env : SubrEnv) (info : TravInfo) (program : List CSToken) (depth : Nat)
      (st' : TravInfo), depth ≤ 11 → info.max_depth ≤ 11 →
      _traverse_subr_call_tree fuel env info program depth = some (.ok st') →
      st'.max_depth ≤ 11) ∧
    (∀ (n : Nat) (env : SubrEnv) (info : TravInfo) (program : List CSToken)
      (depth : Nat) (st' : TravInfo), program.length ≤ n → depth ≤ 10 →
      info.max_depth ≤ 11 →
      subr_loop fuel env info program depth = some (.ok st') →
      st'.max_depth ≤ 11) := by
  intro fuel
  induction fuel using Nat.strong_induction_on with
  | _ fuel IH =>
  have treePart : ∀ (env : SubrEnv) (info : TravInfo) (program : List CSToken)
      (depth : Nat) (st' : TravInfo), depth ≤ 11 → info.max_depth ≤ 11 →
      _traverse_subr_call_tree fuel env info program depth = some (.ok st') →
      st'.max_depth ≤ 11 := by
    intro env info program depth st' hdep hmax heq
    rcases fuel with _ | f
    · rw [tree_zero] at heq
      cases heq
    · by_cases hd : depth > 10
      · rw [tree_deep hd] at heq
        injection heq with heq
        injection heq with heq
        by_cases hc : depth > info.max_depth
        · rw [if_pos hc] at heq
          rw [← heq]
          exact hdep
        · rw [if_neg hc] at heq
          rw [← heq]
          exact hmax
      · rw [tree_go hd] at heq
        refine (IH f (by omega)).2 program.length env (travInfoUpdate info program depth)
          program depth st' le_rfl (by omega) ?_ heq
        rw [travInfoUpdate_max]
        by_cases hc : depth > info.max_depth
        · rw [if_pos hc]; omega
        · rw [if_neg hc]; omega
  refine ⟨treePart, ?_⟩
  intro n
  induction n with
  | zero =>
    intro env info program depth st' hlen hdep hmax heq
    have hp : program = [] := List.length_eq_zero.mp (by omega)
    subst hp
    rw [subr_loop_pop_none (show listPop [] = none from rfl)] at heq
    injection heq with heq
    injection heq with heq
    rw [← heq]
    exact hmax
  | succ n ihn =>
    intro env info program depth st' hlen hdep hmax heq
    rcases hpop : listPop program with _ | ⟨x, rest⟩
    · rw [subr_loop_pop_none hpop] at heq
      injection heq with heq
      injection heq with heq
      rw [← heq]
      exact hmax
    · have hrl := listPop_length hpop
      by_cases hx : x = CSToken.op "callgsubr"
      · subst hx
        rcases hpop2 : listPop rest with _ | ⟨ytok, rest2⟩
        · rw [subr_loop_gsubr_err1 hpop hpop2] at heq
          injection heq with heq
          cases heq
        · have hrl2 := listPop_length hpop2
          rcases htok : tokInt ytok with _ | yv
          · rw [subr_loop_gsubr_err2 hpop hpop2 htok] at heq
            injection heq with heq
            cases heq
          · rcases hget : pyGet env.global_subrs (yv + env.gsubr_bias) with _ | sub
            · rw [subr_loop_gsubr_err3 hpop hpop2 htok hget] at heq
              injection heq with heq
              cases heq
            · rw [subr_loop_gsubr hpop hpop2 htok hget] at heq
              rcases htv : _traverse_subr_call_tree fuel env info sub (depth + 1)
                with _ | res
              · rw [htv] at heq
                cases heq
              · rw [htv] at heq
                rcases res with e | info2
                · dsimp only at heq
                  injection heq with heq
                  cases heq
                · dsimp only at heq
                  have hm2 : info2.max_depth ≤ 11 :=
                    treePart env info sub (depth + 1) info2 (by omega) hmax htv
                  exact ihn env info2 rest2 depth st' (by omega) hdep hm2 heq
      · by_cases hx2 : x = CSToken.op "callsubr"
        · subst hx2
          rcases hsub : env.subrs with _ | subrsList
          · rw [subr_loop_subr_noSubrs hpop hsub] at heq
            injection heq with heq
            cases heq
          · rcases hbias : env.subr_bias with _ | sb
            · rw [subr_loop_subr_noBias hpop hbias] at heq
              injection heq with heq
              cases heq
            · rcases hpop2 : listPop rest with _ | ⟨ytok, rest2⟩
              · rw [subr_loop_subr_err1 hpop hsub hbias hpop2] at heq
                injection heq with heq
                cases heq
              · have hrl2 := listPop_length hpop2
                rcases htok : tokInt ytok with _ | yv
                · rw [subr_loop_subr_err2 hpop hsub hbias hpop2 htok] at heq
                  injection heq with heq
                  cases heq
                · rcases hget : pyGet subrsList (yv + sb) with _ | sub
                  · rw [subr_loop_subr_err3 hpop hsub hbias hpop2 htok hget] at heq
                    injection heq with heq
                    cases heq
                  · rw [subr_loop_subr hpop hsub hbias hpop2 htok hget] at heq
                    rcases htv : _traverse_subr_call_tree fuel env info sub (depth + 1)
                      with _ | res
                    · rw [htv] at heq
                      cases heq
                    · rw [htv] at heq
                      rcases res with e | info2
                      · dsimp only at heq
                        injection heq with heq
                        cases heq
                      · dsimp only at heq
                        have hm2 : info2.max_depth ≤ 11 :=
                          treePart env info sub (depth + 1) info2 (by omega) hmax htv
                        exact ihn env info2 rest2 depth st' (by omega) hdep hm2 heq
        · rw [subr_loop_other hpop hx hx2] at heq
          exact ihn env info rest depth st' (by omega) hdep hmax heq
theorem trav_fuel_mono (env : SubrEnv) (info : TravInfo) (program : List CSToken)
    (depth : Nat) :
    ∀ (k f1 : Nat), 11 - depth < f1 →
      _traverse_subr_call_tree f1 env info program depth =
        _traverse_subr_call_tree (f1 + k) env info program depth := by
  intro k
  induction k with
  | zero => intro f1 h; rfl
  | succ k ih =>
    intro f1 h
    rw [ih f1 h]
    exact ((trav_spec (f1 + k)).1 env info program depth (by omega)).1

/-- C9: `_traverse_subr_call_tree` terminates for every finite charstring
program, cyclic subroutine calls included: with the call-stack budget
modelled as fuel, any fuel above `11 - depth` never exhausts and yields a
result independent of the budget (the depth guard returns once the depth
exceeds 10, and each loop iteration pops the program); the reported
`max_depth` never exceeds 11; and a glyph joins `glyphs_exceed_max` exactly
when its traversal reached depth 11. -/
theorem C9_traversal_depth_guard :
    (∀ (env : SubrEnv) (info : TravInfo) (program : List CSToken) (depth fuel : Nat),
      11 - depth < fuel →
      _traverse_subr_call_tree fuel env info program depth ≠ none ∧
      ∀ fuel2 : Nat, fuel ≤ fuel2 →
        _traverse_subr_call_tree fuel2 env info program depth =
          _traverse_subr_call_tree fuel env info program depth) ∧
    (∀ (env : SubrEnv) (info : TravInfo) (program : List CSToken)
      (depth fuel : Nat) (st' : TravInfo), depth ≤ 11 → info.max_depth ≤ 11 →
      _traverse_subr_call_tree fuel env info program depth = some (.ok st') →
      st'.max_depth ≤ 11) ∧
    (∀ (env : SubrEnv) (program : List CSToken) (fuel : Nat) (st' : TravInfo),
      _traverse_subr_call_tree fuel env ⟨0, false, false⟩ program 0 = some (.ok st') →
      st'.max_depth ≤ 11 ∧
      (glyphExceedsMax fuel env program = some (.ok true) ↔ st'.max_depth = 11)) := by
  refine ⟨?_, ?_, ?_⟩
  · intro env info program depth fuel hf
    refine ⟨((trav_spec fuel).1 env info program depth hf).2, ?_⟩
    intro fuel2 hle
    have := trav_fuel_mono env info program depth (fuel2 - fuel) fuel hf
    rw [show fuel + (fuel2 - fuel) = fuel2 from by omega] at this
    exact this.symm
  · intro env info program depth fuel st' hd hm heq
    exact (trav_bound fuel).1 env info program depth st' hd hm heq
  · intro env program fuel st' heq
    have hb : st'.max_depth ≤ 11 :=
      (trav_bound fuel).1 env ⟨0, false, false⟩ program 0 st' (by omega) (by simp) heq
    refine ⟨hb, ?_⟩
    unfold glyphExceedsMax
    rw [heq]
    constructor
    · intro h
      dsimp only at h
      injection h with h
      injection h with h
      have := of_decide_eq_true h
      omega
    · intro h
      dsimp only
      rw [decide_eq_true (by omega : st'.max_depth > 10)]

/-- A global subroutine that calls itself: gsubr index 0 (bias 107) is the
program `[-107, callgsubr]`, so traversal cycles until the depth guard. -/
def cycEnv : SubrEnv :=
  { global_subrs := [[CSToken.num (-107), CSToken.op "callgsubr"]],
    subrs := none, gsubr_bias := 107, subr_bias := none }

def cycProgram : List CSToken := [CSToken.num (-107), CSToken.op "callgsubr"]

theorem cyc_upd (d : Nat) (info : TravInfo) :
    travInfoUpdate info cycProgram d =
      if d > info.max_depth then { info with max_depth := d } else info := by
  unfold travInfoUpdate
  dsimp only
  rw [if_neg (by decide : ¬ sawEndcharSeacProgram cycProgram = true),
    if_neg (by decide : ¬ cycProgram.contains (.op "ignore") = true)]

/-- Evaluation of the cyclic example: from any entry depth the traversal
completes with `max_depth` pushed to 11. -/
theorem cyc_tree_eval :
    ∀ (k d f : Nat) (info : TravInfo), d + k = 11 → 11 - d < f →
      _traverse_subr_call_tree f cycEnv info cycProgram d =
        some (.ok { info with max_depth := max info.max_depth 11 }) := by
  intro k
  induction k with
  | zero =>
    intro d f info hdk hf
    have hd : d = 11 := by omega
    subst hd
    rcases f with _ | f
    · omega
    · rw [tree_deep (by omega)]
      rcases info with ⟨m, se, sd⟩
      by_cases hc : 11 > m
      · rw [if_pos hc]
        simp
        omega
      · rw [if_neg hc]
        simp
        omega
  | succ k ih =>
    intro d f info hdk hf
    rcases f with _ | f
    · omega
    · rw [tree_go (by omega : ¬ d > 10)]
      rw [subr_loop_gsubr
        (show listPop cycProgram =
          some (CSToken.op "callgsubr", [CSToken.num (-107)]) from rfl)
        (show listPop [CSToken.num (-107)] =
          some (CSToken.num (-107), []) from rfl)
        (show tokInt (CSToken.num (-107)) = some (-107) from rfl)
        (show pyGet cycEnv.global_subrs ((-107) + cycEnv.gsubr_bias) =
          some cycProgram from by decide)]
      rw [ih (d + 1) f (travInfoUpdate info cycProgram d) (by omega) (by omega)]
      dsimp only
      rw [subr_loop_pop_none (show listPop [] = none from rfl)]
      rw [cyc_upd]
      rcases info with ⟨m, se, sd⟩
      by_cases hc : d > m
      · rw [if_pos hc]
        simp
        omega
      · rw [if_neg hc]
/-- C9 witness: on the cyclic global subroutine, fuel 12 (depth budget for
the guard at depth 0) suffices, extra fuel changes nothing, and the glyph is
classified exceed-max with final `max_depth` exactly 11. -/
theorem C9_traversal_depth_guard_witness :
    _traverse_subr_call_tree 12 cycEnv ⟨0, false, false⟩ cycProgram 0 ≠ none ∧
    _traverse_subr_call_tree 13 cycEnv ⟨0, false, false⟩ cycProgram 0 =
      _traverse_subr_call_tree 12 cycEnv ⟨0, false, false⟩ cycProgram 0 ∧
    glyphExceedsMax 12 cycEnv cycProgram = some (.ok true) := by
  have heval : _traverse_subr_call_tree 12 cycEnv ⟨0, false, false⟩ cycProgram 0 =
      some (.ok ⟨11, false, false⟩) := by
    have h := cyc_tree_eval 11 0 12 ⟨0, false, false⟩ (by omega) (by omega)
    simpa using h
  have h1 := C9_traversal_depth_guard.1 cycEnv ⟨0, false, false⟩ cycProgram 0 12
    (by omega)
  have h3 := C9_traversal_depth_guard.2.2 cycEnv cycProgram 12 ⟨11, false, false⟩
    heval
  exact ⟨h1.1, h1.2 13 (by omega), h3.2.mpr rfl⟩
theorem amGo_len (config : Config) (alignments : List (String × ℚ)) :
    ∀ (gs : OutlinesDict) (acc : List String),
      (amGo config alignments acc gs).length = 1 := by
  intro gs
  induction gs with
  | nil =>
    intro acc
    rw [amGo]
    split <;> rfl
  | cons g rest ih =>
    intro acc
    rw [amGo]
    split
    · rfl
    · exact ih _

theorem ssGo_len (config : Config) :
    ∀ (gs : OutlinesDict) (acc : List String), (ssGo config acc gs).length = 1 := by
  intro gs
  induction gs with
  | nil =>
    intro acc
    rw [ssGo]
    split <;> rfl
  | cons g rest ih =>
    intro acc
    rw [ssGo]
    split
    · rfl
    · exact ih _

theorem cvGo_len (config : Config) :
    ∀ (gs : OutlinesDict) (acc : List String), (cvGo config acc gs).length = 1 := by
  intro gs
  induction gs with
  | nil =>
    intro acc
    rw [cvGo]
    split <;> rfl
  | cons g rest ih =>
    intro acc
    rw [cvGo]
    split
    · rfl
    · exact ih _
theorem ite_nonempty_len (l : List Outcome) (x : Outcome) :
    1 ≤ (if l = [] then [x] else l).length := by
  split
  · simp
  · next h => exact List.length_pos.mpr h

/-- C1 (amended): most check bodies emit at least one outcome on every run
they complete, but the CFF checks (`check_cff_call_depth`,
`check_cff2_call_depth`, `check_cff_deprecated_operators`,
`check_cff_ascii_strings`) and `check_outline_direction` emit outcomes only
when a problem is found: on a problem-free input they emit nothing. -/
theorem C1_check_emissions :
    (∀ a : CFFAnalysis, check_cff_call_depth a = [] ↔
      a.glyphs_exceed_max = [] ∧ a.glyphs_recursion_errors = []) ∧
    (∀ a : CFFAnalysis, check_cff2_call_depth a = [] ↔
      a.glyphs_exceed_max = [] ∧ a.glyphs_recursion_errors = []) ∧
    (∀ a : CFFAnalysis, check_cff_deprecated_operators a = [] ↔
      a.glyphs_dotsection = [] ∧ a.glyphs_endchar_seac = []) ∧
    (∀ a : CFFAnalysis, check_cff_ascii_strings a = [] ↔
      a.string_not_ascii = some []) ∧
    (∀ (ttFont : TTFont) (od : OutlinesDict) (config : Config),
      check_outline_direction ttFont od config = [] ↔ odWarnings od = []) ∧
    (∀ (ttFont : TTFont) (vm : VMetricsDict),
      1 ≤ (check_family_win_ascent_and_descent ttFont vm).length) ∧
    (∀ ttFont : TTFont, 1 ≤ (check_os2_metrics_match_hhea ttFont).length) ∧
    (∀ ttFonts : List TTFont, 1 ≤ (check_family_vertical_metrics ttFonts).length) ∧
    (∀ ttFont : TTFont, 1 ≤ (check_linegaps ttFont).length) ∧
    (∀ ttFont : MutTTFont, (check_typoascender_exceeds_Agrave ttFont).1.err = none →
      (check_typoascender_exceeds_Agrave ttFont).1.outcomes.length = 1) ∧
    (∀ ttFont : MutTTFont, (check_caps_vertically_centered ttFont).err = none →
      (check_caps_vertically_centered ttFont).outcomes.length = 1) ∧
    (∀ RIBBI_ttFonts : List TTFont,
      (com_google_fonts_check_family_tnum_horizontal_metrics RIBBI_ttFonts).err = none →
      (com_google_fonts_check_family_tnum_horizontal_metrics RIBBI_ttFonts).outcomes.length
        = 1) ∧
    (∀ (ttFont : TTFont) (od : OutlinesDict) (config : Config),
      (check_outline_alignment_miss ttFont od config).err = none →
      1 ≤ (check_outline_alignment_miss ttFont od config).outcomes.length) ∧
    (∀ (ttFont : TTFont) (od : OutlinesDict) (config : Config),
      (check_outline_short_segments ttFont od config).length = 1) ∧
    (∀ (ttFont : TTFont) (od : OutlinesDict) (config : Config),
      (check_outline_colinear_vectors ttFont od config).length = 1) ∧
    (∀ (jaggyPair : Segment → Segment → Bool) (ttFont : TTFont) (od : OutlinesDict)
      (config : Config),
      (check_outline_jaggy_segments jaggyPair ttFont od config).length = 1) ∧
    (∀ (ttFont : TTFont) (od : OutlinesDict) (config : Config),
      (check_outline_semi_vertical ttFont od config).length = 1) ∧
    (∀ (ttFont : TTFont) (od : OutlinesDict) (config : Config),
      (check_overlapping_path_segments ttFont od config).length = 1) ∧
    (∀ (fonts : List String) (config : Config),
      1 ≤ (com_google_fonts_check_family_italics_have_roman_counterparts
        fonts config).length) ∧
    (∀ (canonical_stylename : StylenameFn) (ttFonts : List TTFont) (config : Config),
      (com_google_fonts_check_family_equal_codepoint_coverage canonical_stylename
        ttFonts config).err = none →
      (com_google_fonts_check_family_equal_codepoint_coverage canonical_stylename
        ttFonts config).outcomes.length = 1) := by
  refine ⟨?_, ?_, ?_, ?_, ?_, ?_, ?_, ?_, ?_, ?_, ?_, ?_, ?_, ?_, ?_, ?_, ?_, ?_, ?_, ?_⟩
  · intro a
    unfold check_cff_call_depth
    by_cases h1 : a.glyphs_exceed_max = [] <;> by_cases h2 : a.glyphs_recursion_errors = [] <;>
      simp [h1, h2]
  · intro a
    unfold check_cff2_call_depth
    by_cases h1 : a.glyphs_exceed_max = [] <;> by_cases h2 : a.glyphs_recursion_errors = [] <;>
      simp [h1, h2]
  · intro a
    unfold check_cff_deprecated_operators
    by_cases h1 : a.glyphs_dotsection = [] <;> by_cases h2 : a.glyphs_endchar_seac = [] <;>
      simp [h1, h2]
  · intro a
    unfold check_cff_ascii_strings
    rcases h : a.string_not_ascii with _ | l
    · simp
    · by_cases hl : l = [] <;> simp [hl]
  · intro ttFont od config
    unfold check_outline_direction
    by_cases h : odWarnings od = [] <;> simp [h]
  · intro ttFont vm
    unfold check_family_win_ascent_and_descent
    rcases ttFont.os2 with _ | o
    · simp
    · exact ite_nonempty_len _ _
  · intro ttFont
    unfold check_os2_metrics_match_hhea
    rcases ttFont.os2 with _ | o <;> rcases ttFont.hhea with _ | hh <;> dsimp only
    · simp
    · simp
    · simp
    · split_ifs <;> simp
  · intro ttFonts
    unfold check_family_vertical_metrics
    have hfold := vmStep_fold ttFonts [] false emptyVMDicts
    rcases hst : ttFonts.foldl vmStep ([], false, emptyVMDicts) with ⟨outs, miss, dicts⟩
    rw [hst] at hfold
    simp only at hfold
    dsimp only
    rcases hm : miss with _ | _
    · rw [if_neg (by simp)]
      split
      · simp
      · next hfa =>
        rw [List.length_append, List.length_map]
        have := List.length_pos.mpr hfa
        omega
    · rw [if_pos rfl]
      rw [hm] at hfold
      have : ttFonts.any (fun f => (vmMissingFail f).isSome) = true := by
        rcases hany : ttFonts.any (fun f => (vmMissingFail f).isSome) with _ | _
        · rw [hany] at hfold; simp at hfold
        · rfl
      obtain ⟨f, hf, hsome⟩ := List.any_eq_true.mp this
      have houts : outs ≠ [] := by
        rw [hfold.1]
        simp only [List.nil_append]
        intro hcon
        rcases hmf : vmMissingFail f with _ | out
        · rw [hmf] at hsome; simp at hsome
        · have hmem : out ∈ List.filterMap vmMissingFail ttFonts :=
            List.mem_filterMap.mpr ⟨f, hf, hmf⟩
          rw [hcon] at hmem
          simp at hmem
      exact List.length_pos.mpr houts
  · intro ttFont
    unfold check_linegaps
    rcases ttFont.os2 with _ | o <;> rcases ttFont.hhea with _ | hh <;> dsimp only
    · simp
    · simp
    · simp
    · split_ifs <;> simp
  · intro ttFont
    unfold check_typoascender_exceeds_Agrave deepcopy
    dsimp only
    repeat' split
    all_goals intro h
    all_goals first | rfl | simp at h
  · intro ttFont
    unfold check_caps_vertically_centered deepcopy
    dsimp only
    repeat' split
    all_goals intro h
    all_goals first | rfl | simp at h
  · intro RIBBI_ttFonts
    unfold com_google_fonts_check_family_tnum_horizontal_metrics
    dsimp only
    by_cases hw : (tnum_widths RIBBI_ttFonts).length > 1
    · rw [if_pos hw]
      rcases hmc : (tnumMostCommon 0 none (tnum_widths RIBBI_ttFonts)).2 with _ | w
      · intro h
        simp at h
      · intro h
        rfl
    · rw [if_neg hw]
      intro h
      rfl
  · intro ttFont od config h
    unfold check_outline_alignment_miss at h ⊢
    rcases ho : ttFont.os2 with _ | o
    · rw [ho] at h
      exact Option.noConfusion h
    · show 1 ≤ (amPre o ++ amGo config (amAlignments o) [] od).length
      rw [List.length_append, amGo_len]
      omega
  · intro ttFont od config
    unfold check_outline_short_segments
    exact ssGo_len config od []
  · intro ttFont od config
    unfold check_outline_colinear_vectors
    exact cvGo_len config od []
  · intro jaggyPair ttFont od config
    unfold check_outline_jaggy_segments
    dsimp only
    split <;> rfl
  · intro ttFont od config
    unfold check_outline_semi_vertical
    dsimp only
    split <;> rfl
  · intro ttFont od config
    unfold check_overlapping_path_segments
    dsimp only
    split <;> rfl
  · intro fonts config
    unfold com_google_fonts_check_family_italics_have_roman_counterparts
    dsimp only
    rw [List.length_append]
    split <;> simp
  · intro canonical_stylename ttFonts config
    unfold com_google_fonts_check_family_equal_codepoint_coverage
    dsimp only
    repeat' split
    all_goals intro h
    all_goals first | rfl | simp at h
/-- C1 counterexample: on problem-free inputs, `check_cff_call_depth`,
`check_cff_deprecated_operators` and `check_outline_direction` emit no
outcome at all, refuting the claim that every check body emits at least one
outcome even when no problem is found. -/
theorem C1_check_emissions_counterexample :
    check_cff_call_depth emptyCFFAnalysis = [] ∧
    check_cff_deprecated_operators emptyCFFAnalysis = [] ∧
    check_outline_direction blankFont [] emptyConfig = [] := by
  refine ⟨?_, ?_, ?_⟩
  · decide
  · decide
  · decide

/-- A font with an OS/2 table but no glyphs. -/
def os2OnlyFont : MutTTFont :=
  ⟨{ fileName := "O.ttf", fullName := "O", os2 := some ⟨1000, 200, 800, -200, 0, 4, 500, 700⟩,
     hhea := none, head := none, glyphSet := [], bbYMin := 0, bbYMax := 0,
     cmapCodepoints := [] }, 0⟩

/-- C1 witness: a completed run of a non-CFF check emits exactly one
outcome. -/
theorem C1_check_emissions_witness :
    (check_typoascender_exceeds_Agrave os2OnlyFont).1.outcomes.length = 1 := by
  exact C1_check_emissions.2.2.2.2.2.2.2.2.2.1 os2OnlyFont (by decide)
